import Mathlib

/-!
Verification of the aggregation core of the Chicago neighborhood data scripts
(`scripts/process-neighborhood-data.py`, `scripts/process-additional-data.py`,
`scripts/update-neighborhood-data.py`).

Modelling conventions:
* Python floats are modelled as exact rationals `ℚ`; decimal literals from the
  scripts (block sizes, bounding-box corners, coordinates) are the corresponding
  exact decimal rationals.
* Python's built-in `round` (round-half-to-even a.k.a. banker's rounding) is
  `pyRound`; Python `int()` applied to a float (truncation toward zero) is
  `pyTrunc`.
* Python `defaultdict` instances keyed by grid cell (insertion-ordered, as all
  Python dicts are) are modelled as insertion-ordered association lists, with
  `updAssoc` performing the `blocks[key]` mutate-or-create access.
* CSV rows are modelled as structures whose numeric fields carry the outcome of
  the corresponding `float(...)`/`int(...)` parse: `Option` with `none` for a
  parse that raises (the scripts' `try`/`except` skip paths), `some q` for a
  successful parse.  Date-recency tests (`datetime.strptime` + cutoff
  comparison) are abstracted as a boolean-valued function of the raw date
  string, passed as a parameter to the fold.
-/

namespace Ticketless

/-- Python's built-in `round` on an exact rational: round to the nearest
integer, ties to the even integer (banker's rounding). -/
def pyRound (q : ℚ) : ℤ :=
  if q - ⌊q⌋ < 1/2 then ⌊q⌋
  else if (1 : ℚ)/2 < q - ⌊q⌋ then ⌊q⌋ + 1
  else if 2 ∣ ⌊q⌋ then ⌊q⌋ else ⌊q⌋ + 1

/-- Round-half-away-from-zero on an exact rational.  This is the rounding the
specification prescribes for `quantize`; it is compared against the scripts'
actual `round` (= `pyRound`). -/
def roundAway (q : ℚ) : ℤ :=
  if q - ⌊q⌋ < 1/2 then ⌊q⌋
  else if (1 : ℚ)/2 < q - ⌊q⌋ then ⌊q⌋ + 1
  else if q < 0 then ⌊q⌋ else ⌊q⌋ + 1

/-- Python `int()` applied to a float value: truncation toward zero. -/
def pyTrunc (q : ℚ) : ℤ := if 0 ≤ q then ⌊q⌋ else ⌈q⌉

theorem pyRound_intCast (n : ℤ) : pyRound (n : ℚ) = n := by
  simp [pyRound]

theorem pyTrunc_nonneg {q : ℚ} (h : 0 ≤ q) : 0 ≤ pyTrunc q := by
  rw [pyTrunc, if_pos h]
  exact Int.floor_nonneg.mpr h

/-- The value `pyRound q` is within 1/2 of `q`, and when the distance is
exactly 1/2 (a tie) the chosen integer is even. -/
theorem pyRound_close (q : ℚ) :
    |q - pyRound q| ≤ 1/2 ∧ (|q - pyRound q| = 1/2 → 2 ∣ pyRound q) := by
  have hfr0 : 0 ≤ q - ⌊q⌋ := by
    have := Int.floor_le q
    linarith
  have hfr1 : q - ⌊q⌋ < 1 := by
    have := Int.lt_floor_add_one q
    linarith
  have hd1 : q - ((⌊q⌋ + 1 : ℤ) : ℚ) = (q - ⌊q⌋) - 1 := by
    push_cast
    ring
  unfold pyRound
  split_ifs with h1 h2 h3
  · refine ⟨by rw [abs_of_nonneg hfr0]; linarith, fun habs => ?_⟩
    rw [abs_of_nonneg hfr0] at habs
    exact absurd habs (by linarith)
  · refine ⟨?_, fun habs => ?_⟩
    · rw [hd1, abs_of_nonpos (by linarith)]
      linarith
    · rw [hd1, abs_of_nonpos (by linarith)] at habs
      exact absurd habs (by intro hc; linarith)
  · have heq : q - (⌊q⌋ : ℚ) = 1/2 := le_antisymm (not_lt.mp h2) (not_lt.mp h1)
    exact ⟨by rw [heq, abs_of_nonneg] <;> norm_num, fun _ => h3⟩
  · have heq : q - (⌊q⌋ : ℚ) = 1/2 := le_antisymm (not_lt.mp h2) (not_lt.mp h1)
    have hd : q - ((⌊q⌋ + 1 : ℤ) : ℚ) = -(1/2) := by
      rw [hd1, heq]
      norm_num
    refine ⟨by rw [hd, abs_neg, abs_of_nonneg] <;> norm_num, fun _ => ?_⟩
    rcases Int.even_or_odd ⌊q⌋ with he | ho
    · exact absurd he.two_dvd h3
    · rcases ho with ⟨m, hm⟩
      exact ⟨m + 1, by omega⟩

/-- Bounding-box check shared by every processor:
`41.6 < lat < 42.1 and -88.0 < lng < -87.5` (the Chicago metro envelope). -/
def inBounds (lat lng : ℚ) : Bool :=
  decide (41.6 < lat ∧ lat < 42.1 ∧ -88.0 < lng ∧ lng < -87.5)

/-- Block size of `process-neighborhood-data.py` and
`update-neighborhood-data.py` (`BLOCK_SIZE = 0.002`). -/
def BLOCK_SIZE : ℚ := 0.002

/-- Block size of `process-additional-data.py` (`BLOCK_SIZE = 0.004`). -/
def BLOCK_SIZE_ADD : ℚ := 0.004

/-- The scripts' `round_to_block`: quantize a coordinate pair onto the grid,
`(round(lat / bs) * bs, round(lng / bs) * bs)` with Python `round`. -/
def round_to_block (bs lat lng : ℚ) : ℚ × ℚ :=
  (pyRound (lat / bs) * bs, pyRound (lng / bs) * bs)

/-- What the specification says `quantize` computes: the same formula with
round-half-away-from-zero in place of Python `round`. -/
def round_to_block_spec (bs lat lng : ℚ) : ℚ × ℚ :=
  (roundAway (lat / bs) * bs, roundAway (lng / bs) * bs)

/-- Python `round(x, 4)` on an exact rational (output coordinate rounding). -/
def round4 (q : ℚ) : ℚ := (pyRound (q * 10000) : ℚ) / 10000

/-- Python `round(x, 5)` on an exact rational (camera coordinate rounding). -/
def round5 (q : ℚ) : ℚ := (pyRound (q * 100000) : ℚ) / 100000

theorem round_to_block_eq (bs lat lng : ℚ) (m n : ℤ)
    (h1 : lat / bs = (m : ℚ)) (h2 : lng / bs = (n : ℚ)) :
    round_to_block bs lat lng = ((m : ℚ) * bs, (n : ℚ) * bs) := by
  unfold round_to_block
  rw [h1, h2, pyRound_intCast, pyRound_intCast]

theorem round4_eq (q : ℚ) (n : ℤ) (h : q * 10000 = (n : ℚ)) :
    round4 q = (n : ℚ) / 10000 := by
  unfold round4
  rw [h, pyRound_intCast]

theorem round5_eq (q : ℚ) (n : ℤ) (h : q * 100000 = (n : ℚ)) :
    round5 q = (n : ℚ) / 100000 := by
  unfold round5
  rw [h, pyRound_intCast]

/-- Python's `in` on strings: `pat in s` (substring containment). -/
def substrOf (pat s : String) : Bool :=
  s.toList.tails.any (fun t => pat.toList.isPrefixOf t)

/-- Python `str.strip()`: drop leading and trailing whitespace. -/
def pyStrip (s : String) : String :=
  ⟨((s.toList.dropWhile Char.isWhitespace).reverse.dropWhile
      Char.isWhitespace).reverse⟩

/-- Python `str.upper()` (ASCII uppercasing, as used on the status fields). -/
def pyUpper (s : String) : String :=
  ⟨s.toList.map Char.toUpper⟩

/-- The scripts' first-truthy-writer update for `ward`/`address` fields:
`if not blocks[k][fld]: blocks[k][fld] = v`.  `none` models the defaultdict
initial `None`; a stored empty string is also falsy and hence overwritable. -/
def latch (cur : Option String) (v : String) : Option String :=
  if cur = none ∨ cur = some "" then some v else cur

/-- Value of a string of decimal digits. -/
def decDigits (cs : List Char) : ℕ :=
  cs.foldl (fun n c => n * 10 + (c.toNat - 48)) 0

/-- Python `float(s)` on a plain decimal string `[sign] digits [. digits]`,
returned as an exact pair (signed numerator, decimal scale), `none` when the
parse raises `ValueError`.  (Exponents and special values never occur in the
fields the scripts parse.) -/
def parseDec (s : String) : Option (ℤ × ℕ) :=
  let core : List Char → Option (ℤ × ℕ) := fun cs =>
    match cs.span Char.isDigit with
    | (ip, []) => if ip.isEmpty then none else some ((decDigits ip : ℤ), 0)
    | (ip, '.' :: fp) =>
        if (ip.isEmpty && fp.isEmpty) || !fp.all Char.isDigit then none
        else some ((decDigits ip * 10 ^ fp.length + decDigits fp : ℤ), fp.length)
    | _ => none
  match s.toList with
  | '-' :: rest => (core rest).map (fun p => (-p.1, p.2))
  | '+' :: rest => core rest
  | cs => core cs

/-- The rational value of a `parseDec` result. -/
def ratOfDec (p : ℤ × ℕ) : ℚ := (p.1 : ℚ) / 10 ^ p.2

/-- Python `int(s)` on a string: `[sign] digits`, `none` when it raises. -/
def parseIntStr (s : String) : Option ℤ :=
  match s.toList with
  | '-' :: rest =>
      if rest.isEmpty || !rest.all Char.isDigit then none
      else some (-(decDigits rest : ℤ))
  | '+' :: rest =>
      if rest.isEmpty || !rest.all Char.isDigit then none
      else some ((decDigits rest : ℤ))
  | cs =>
      if cs.isEmpty || !cs.all Char.isDigit then none
      else some ((decDigits cs : ℤ))

/-- The permit cost preprocessing `cost.replace('$', '').replace(',', '')`. -/
def stripCost (s : String) : String :=
  ⟨s.toList.filter (fun c => c ≠ '$' ∧ c ≠ ',')⟩

/-- Amount the `REPORTED_COST` field of one permit row adds to
`blocks[k]['total_cost']` in `process-additional-data.py` lines 85-90:
strip `$` and `,`; an empty result is skipped, a parse failure is swallowed by
`except: pass`; both contribute `0` and the row is otherwise unaffected. -/
def costContribution (s : String) : ℚ :=
  let c := stripCost s
  if c = "" then 0
  else
    match parseDec c with
    | some p => ratOfDec p
    | none => 0

end Ticketless

namespace Ticketless

/-- Lookup in an insertion-ordered association list (Python dict access). -/
def lookA {κ α : Type} [DecidableEq κ] : List (κ × α) → κ → Option α
  | [], _ => none
  | (k', v) :: rest, k => if k' = k then some v else lookA rest k

/-- Mutate-or-create access `blocks[k]` on a `defaultdict`: apply `f` to the
entry at `k` in place if present, otherwise append `(k, f d)` where `d` is the
default cell, preserving dict insertion order. -/
def updAssoc {κ α : Type} [DecidableEq κ] (k : κ) (f : α → α) (d : α) :
    List (κ × α) → List (κ × α)
  | [] => [(k, f d)]
  | (k', v) :: rest =>
      if k' = k then (k', f v) :: rest else (k', v) :: updAssoc k f d rest

theorem lookA_updAssoc_self {κ α : Type} [DecidableEq κ] (k : κ) (f : α → α)
    (d : α) (s : List (κ × α)) :
    lookA (updAssoc k f d s) k = some (f ((lookA s k).getD d)) := by
  induction s with
  | nil => simp [updAssoc, lookA]
  | cons kv rest ih =>
    obtain ⟨k', v⟩ := kv
    by_cases h : k' = k
    · subst h
      simp [updAssoc, lookA]
    · simp [updAssoc, lookA, h, ih]

theorem lookA_updAssoc_ne {κ α : Type} [DecidableEq κ] {k k' : κ} (f : α → α)
    (d : α) (s : List (κ × α)) (h : k' ≠ k) :
    lookA (updAssoc k f d s) k' = lookA s k' := by
  induction s with
  | nil => simp [updAssoc, lookA, Ne.symm h]
  | cons kv rest ih =>
    obtain ⟨k₀, v⟩ := kv
    by_cases h0 : k₀ = k
    · subst h0
      simp [updAssoc, lookA, Ne.symm h]
    · simp only [updAssoc, if_neg h0]
      by_cases h1 : k₀ = k'
      · subst h1
        simp [lookA]
      · simp [lookA, h1, ih]

theorem mem_keys_updAssoc {κ α : Type} [DecidableEq κ] (k : κ) (f : α → α)
    (d : α) (s : List (κ × α)) (k₁ : κ)
    (h : k₁ ∈ (updAssoc k f d s).map Prod.fst) :
    k₁ ∈ s.map Prod.fst ∨ k₁ = k := by
  induction s with
  | nil => simpa [updAssoc] using h
  | cons kv rest ih =>
    obtain ⟨k', v⟩ := kv
    by_cases h0 : k' = k
    · subst h0
      simp only [updAssoc, eq_self_iff_true, if_true, List.map_cons,
        List.mem_cons] at h
      rcases h with h | h
      · exact Or.inr h
      · exact Or.inl (List.mem_cons.mpr (Or.inr h))
    · simp only [updAssoc, if_neg h0, List.map_cons, List.mem_cons] at h
      rcases h with h | h
      · exact Or.inl (by simp [h])
      · rcases ih h with h1 | h1
        · exact Or.inl (List.mem_cons.mpr (Or.inr h1))
        · exact Or.inr h1

theorem keys_updAssoc_nodup {κ α : Type} [DecidableEq κ] (k : κ) (f : α → α)
    (d : α) (s : List (κ × α)) (h : (s.map Prod.fst).Nodup) :
    ((updAssoc k f d s).map Prod.fst).Nodup := by
  induction s with
  | nil => simp [updAssoc]
  | cons kv rest ih =>
    obtain ⟨k', v⟩ := kv
    simp only [List.map_cons, List.nodup_cons] at h
    by_cases h0 : k' = k
    · subst h0
      simp only [updAssoc, eq_self_iff_true, if_true, List.map_cons,
        List.nodup_cons]
      exact h
    · simp only [updAssoc, if_neg h0, List.map_cons, List.nodup_cons]
      refine ⟨fun hmem => ?_, ih h.2⟩
      rcases mem_keys_updAssoc k f d rest k' hmem with h1 | h1
      · exact h.1 h1
      · exact h0 h1

theorem mem_of_lookA {κ α : Type} [DecidableEq κ] {s : List (κ × α)} {k : κ}
    {v : α} (h : lookA s k = some v) : (k, v) ∈ s := by
  induction s with
  | nil => simp [lookA] at h
  | cons kv rest ih =>
    obtain ⟨k', v'⟩ := kv
    by_cases h0 : k' = k
    · subst h0
      simp only [lookA, eq_self_iff_true, if_true, Option.some.injEq] at h
      exact List.mem_cons.mpr (Or.inl (by rw [h]))
    · simp only [lookA, if_neg h0] at h
      exact List.mem_cons.mpr (Or.inr (ih h))

theorem lookA_of_mem_nodup {κ α : Type} [DecidableEq κ] {s : List (κ × α)}
    {k : κ} {v : α} (hnd : (s.map Prod.fst).Nodup) (h : (k, v) ∈ s) :
    lookA s k = some v := by
  induction s with
  | nil => simp at h
  | cons kv rest ih =>
    obtain ⟨k', v'⟩ := kv
    simp only [List.map_cons, List.nodup_cons] at hnd
    rcases List.mem_cons.mp h with h0 | h0
    · simp only [Prod.mk.injEq] at h0
      obtain ⟨h1, h2⟩ := h0
      simp [lookA, h1.symm, h2.symm]
    · by_cases hk : k' = k
      · subst hk
        exact absurd (List.mem_map.mpr ⟨(k', v), h0, rfl⟩) hnd.1
      · simp only [lookA, if_neg hk]
        exact ih hnd.2 h0

/-- Generic shape of one loop iteration shared by every per-dataset processor:
the row is either skipped by a guard (`continue`) or folded into the cell at
its key via `blocks[key]` mutations, combined into the single update `tw`. -/
def stepG {κ ρ α : Type} [DecidableEq κ] (acc : ρ → Bool) (key : ρ → κ)
    (tw : ρ → α → α) (d : α) (s : List (κ × α)) (r : ρ) : List (κ × α) :=
  if acc r then updAssoc (key r) (tw r) d s else s

/-- The whole single-pass fold over the record stream. -/
def foldG {κ ρ α : Type} [DecidableEq κ] (acc : ρ → Bool) (key : ρ → κ)
    (tw : ρ → α → α) (d : α) (rows : List ρ) (s : List (κ × α)) :
    List (κ × α) :=
  rows.foldl (stepG acc key tw d) s

/-- Whether a row passes the guards and lands in cell `k`. -/
def hitsG {κ ρ : Type} [DecidableEq κ] (acc : ρ → Bool) (key : ρ → κ) (k : κ)
    (r : ρ) : Bool :=
  acc r && decide (key r = k)

theorem foldG_nil {κ ρ α : Type} [DecidableEq κ] (acc : ρ → Bool) (key : ρ → κ)
    (tw : ρ → α → α) (d : α) (s : List (κ × α)) :
    foldG acc key tw d [] s = s := rfl

theorem foldG_cons {κ ρ α : Type} [DecidableEq κ] (acc : ρ → Bool)
    (key : ρ → κ) (tw : ρ → α → α) (d : α) (r : ρ) (rows : List ρ)
    (s : List (κ × α)) :
    foldG acc key tw d (r :: rows) s =
      foldG acc key tw d rows (stepG acc key tw d s r) := rfl

theorem foldG_append {κ ρ α : Type} [DecidableEq κ] (acc : ρ → Bool)
    (key : ρ → κ) (tw : ρ → α → α) (d : α) (rows₁ rows₂ : List ρ)
    (s : List (κ × α)) :
    foldG acc key tw d (rows₁ ++ rows₂) s =
      foldG acc key tw d rows₂ (foldG acc key tw d rows₁ s) :=
  List.foldl_append ..

/-- Read an additive measure of the cell at `k`, with the default cell's value
for a key not yet present. -/
def measureAt {κ α M : Type} [DecidableEq κ] (m : α → M) (d : α)
    (s : List (κ × α)) (k : κ) : M :=
  ((lookA s k).map m).getD (m d)

/-- Characterization of every additive accumulator of the fold: any cell
component that each folded row bumps by a row-determined amount `g r` ends up
as the initial value plus the sum of `g` over the rows that hit the cell. -/
theorem foldG_measure {κ ρ α M : Type} [DecidableEq κ] [AddCommMonoid M]
    (acc : ρ → Bool) (key : ρ → κ) (tw : ρ → α → α) (d : α) (m : α → M)
    (g : ρ → M) (hm : ∀ r a, acc r = true → m (tw r a) = m a + g r)
    (rows : List ρ) (s : List (κ × α)) (k : κ) :
    measureAt m d (foldG acc key tw d rows s) k =
      measureAt m d s k +
        (((rows.filter (hitsG acc key k)).map g).sum) := by
  induction rows generalizing s with
  | nil => simp [foldG_nil]
  | cons r rows ih =>
    rw [foldG_cons, ih]
    by_cases hacc : acc r = true
    · by_cases hk : key r = k
      · have hh : hitsG acc key k r = true := by
          simp [hitsG, hacc, hk]
        have hstep : measureAt m d (stepG acc key tw d s r) k =
            measureAt m d s k + g r := by
          subst hk
          rw [stepG, if_pos hacc, measureAt,
            lookA_updAssoc_self (key r) (tw r) d s]
          rcases h0 : lookA s (key r) with _ | a
          · simp only [measureAt, h0, Option.map_none, Option.map_some,
              Option.getD_none, Option.getD_some]
            exact hm r d hacc
          · simp only [measureAt, h0, Option.map_some, Option.getD_some]
            exact hm r a hacc
        rw [hstep, List.filter_cons_of_pos hh, List.map_cons, List.sum_cons,
          add_assoc]
      · have hh : hitsG acc key k r = false := by
          simp [hitsG, hk]
        have hstep : measureAt m d (stepG acc key tw d s r) k =
            measureAt m d s k := by
          rw [stepG, if_pos hacc, measureAt, measureAt,
            lookA_updAssoc_ne (tw r) d s (fun hc => hk hc.symm)]
        rw [hstep, List.filter_cons_of_neg (by simp [hh])]
    · have hacc' : acc r = false := by
        revert hacc
        cases acc r <;> simp
      have hstep : stepG acc key tw d s r = s := by
        rw [stepG, if_neg (by simp [hacc'])]
      rw [hstep, List.filter_cons_of_neg (by simp [hitsG, hacc'])]

/-- Characterization of the latch fields: folding applies `latch` successively
with the latched values of the rows that hit the cell, in input order. -/
theorem foldG_latch {κ ρ α : Type} [DecidableEq κ]
    (acc : ρ → Bool) (key : ρ → κ) (tw : ρ → α → α) (d : α)
    (m : α → Option String) (w : ρ → String)
    (hm : ∀ r a, acc r = true → m (tw r a) = latch (m a) (w r))
    (rows : List ρ) (s : List (κ × α)) (k : κ) :
    measureAt m d (foldG acc key tw d rows s) k =
      ((rows.filter (hitsG acc key k)).map w).foldl latch
        (measureAt m d s k) := by
  induction rows generalizing s with
  | nil => simp [foldG_nil]
  | cons r rows ih =>
    rw [foldG_cons, ih]
    by_cases hacc : acc r = true
    · by_cases hk : key r = k
      · have hh : hitsG acc key k r = true := by
          simp [hitsG, hacc, hk]
        have hstep : measureAt m d (stepG acc key tw d s r) k =
            latch (measureAt m d s k) (w r) := by
          subst hk
          rw [stepG, if_pos hacc, measureAt,
            lookA_updAssoc_self (key r) (tw r) d s]
          rcases h0 : lookA s (key r) with _ | a
          · simp only [measureAt, h0, Option.map_none, Option.map_some,
              Option.getD_none, Option.getD_some]
            exact hm r d hacc
          · simp only [measureAt, h0, Option.map_some, Option.getD_some]
            exact hm r a hacc
        rw [hstep, List.filter_cons_of_pos hh, List.map_cons, List.foldl_cons]
      · have hstep : measureAt m d (stepG acc key tw d s r) k =
            measureAt m d s k := by
          rw [stepG, if_pos hacc, measureAt, measureAt,
            lookA_updAssoc_ne (tw r) d s (fun hc => hk hc.symm)]
        rw [hstep, List.filter_cons_of_neg (by simp [hitsG, hk])]
    · have hacc' : acc r = false := by
        revert hacc
        cases acc r <;> simp
      have hstep : stepG acc key tw d s r = s := by
        rw [stepG, if_neg (by simp [hacc'])]
      rw [hstep, List.filter_cons_of_neg (by simp [hitsG, hacc'])]

/-- Characterization of the overwrite-every-time fields (camera aggregation):
the final value is the initial one if no row hits the key, else the value
carried by the last row that hits it. -/
theorem foldG_setter {κ ρ α β : Type} [DecidableEq κ]
    (acc : ρ → Bool) (key : ρ → κ) (tw : ρ → α → α) (d : α)
    (m : α → β) (w : ρ → β)
    (hm : ∀ r a, acc r = true → m (tw r a) = w r)
    (rows : List ρ) (s : List (κ × α)) (k : κ) :
    measureAt m d (foldG acc key tw d rows s) k =
      (((rows.filter (hitsG acc key k)).getLast?).map w).getD
        (measureAt m d s k) := by
  induction rows using List.reverseRecOn generalizing s with
  | nil => simp [foldG_nil]
  | append_singleton rows r ih =>
    rw [foldG_append, List.filter_append]
    by_cases hh : hitsG acc key k r = true
    · have hacc : acc r = true := by
        revert hh
        rw [hitsG]
        cases acc r <;> simp
      have hk : key r = k := by
        revert hh
        rw [hitsG]
        by_cases h : key r = k <;> simp [h]
      have hfil : List.filter (hitsG acc key k) [r] = [r] := by
        simp [hh]
      have hone : foldG acc key tw d [r] (foldG acc key tw d rows s) =
          updAssoc k (tw r) d (foldG acc key tw d rows s) := by
        rw [foldG_cons, foldG_nil, stepG, if_pos hacc, hk]
      rw [hone, hfil, measureAt, lookA_updAssoc_self k (tw r) d _,
        List.getLast?_concat]
      rcases h0 : lookA (foldG acc key tw d rows s) k with _ | a
      · simp [hm r d hacc]
      · simp [hm r a hacc]
    · have hfil : List.filter (hitsG acc key k) [r] = [] := by
        simp only [List.filter, hh]
      have hmeas :
          measureAt m d (foldG acc key tw d [r] (foldG acc key tw d rows s)) k
            = measureAt m d (foldG acc key tw d rows s) k := by
        by_cases hacc : acc r = true
        · have hk : ¬ key r = k := by
            revert hh
            rw [hitsG, hacc]
            by_cases h : key r = k <;> simp [h]
          rw [foldG_cons, foldG_nil, stepG, if_pos hacc, measureAt, measureAt,
            lookA_updAssoc_ne (tw r) d _ (fun hc => hk hc.symm)]
        · rw [foldG_cons, foldG_nil, stepG,
            if_neg (by revert hacc; cases acc r <;> simp)]
      rw [hmeas, ih, hfil, List.append_nil]

theorem keys_foldG_nodup {κ ρ α : Type} [DecidableEq κ] (acc : ρ → Bool)
    (key : ρ → κ) (tw : ρ → α → α) (d : α) (rows : List ρ)
    (s : List (κ × α)) (h : (s.map Prod.fst).Nodup) :
    ((foldG acc key tw d rows s).map Prod.fst).Nodup := by
  induction rows generalizing s with
  | nil => exact h
  | cons r rows ih =>
    rw [foldG_cons]
    refine ih _ ?_
    rw [stepG]
    by_cases hacc : acc r = true
    · rw [if_pos hacc]
      exact keys_updAssoc_nodup _ _ _ _ h
    · rw [if_neg (by revert hacc; cases acc r <;> simp)]
      exact h

/-- Folding `latch` from the empty initial value: the cell keeps the first
non-empty value written (or the empty string if only empty values arrived). -/
theorem foldl_latch_some_ne (v : String) (hv : v ≠ "") (ws : List String) :
    ws.foldl latch (some v) = some v := by
  induction ws with
  | nil => rfl
  | cons w ws ih =>
    rw [List.foldl_cons, latch, if_neg (by simp [hv])]
    exact ih

theorem foldl_latch_some_empty (ws : List String) :
    ws.foldl latch (some "") =
      some ((ws.find? (fun w => decide (w ≠ ""))).getD "") := by
  induction ws with
  | nil => rfl
  | cons w ws ih =>
    rw [List.foldl_cons, latch, if_pos (Or.inr rfl)]
    by_cases hw : w = ""
    · subst hw
      rw [ih, List.find?]
      norm_num
    · rw [foldl_latch_some_ne w hw ws, List.find?]
      simp [hw]

theorem foldl_latch_none (ws : List String) :
    ws.foldl latch none =
      if ws.isEmpty then none
      else some ((ws.find? (fun w => decide (w ≠ ""))).getD "") := by
  cases ws with
  | nil => rfl
  | cons w ws =>
    rw [List.foldl_cons, latch, if_pos (Or.inl rfl)]
    by_cases hw : w = ""
    · subst hw
      rw [foldl_latch_some_empty, List.find?]
      norm_num
    · rw [foldl_latch_some_ne w hw ws, List.find?]
      simp [hw]

/-- Guard shared by every grid processor: both coordinates parsed and the pair
lies inside the bounding box (`try: lat = float(...) ... except: continue` and
`if not (41.6 < lat < 42.1 and -88.0 < lng < -87.5): continue`). -/
def coordsOK (a b : Option ℚ) : Bool :=
  match a, b with
  | some lat, some lng => inBounds lat lng
  | _, _ => false

end Ticketless

namespace Ticketless

/-! ### 311 service requests (`process-neighborhood-data.py`, `process_311`) -/

/-- The flattened `type_to_category` lookup table of `process_311`, in the
insertion order produced by iterating `RELEVANT_CATEGORIES`. -/
def type_to_category311 : List (String × String) :=
  [("Pothole in Street Complaint", "infrastructure"),
   ("Alley Pothole Complaint", "infrastructure"),
   ("Street Light Out Complaint", "infrastructure"),
   ("Alley Light Out Complaint", "infrastructure"),
   ("Traffic Signal Out Complaint", "infrastructure"),
   ("Sign Repair Request", "infrastructure"),
   ("Sidewalk Inspection Request", "infrastructure"),
   ("Graffiti Removal Request", "sanitation"),
   ("Garbage Cart Maintenance", "sanitation"),
   ("Fly Dumping Complaint", "sanitation"),
   ("Sanitation Code Violation", "sanitation"),
   ("Dead Animal Pick-Up Request", "sanitation"),
   ("Rodent Baiting/Rat Complaint", "pests"),
   ("Stray Animal Complaint", "pests"),
   ("Abandoned Vehicle Complaint", "vehicles"),
   ("Tree Trim Request", "trees"),
   ("Tree Debris Clean-Up Request", "trees"),
   ("Tree Emergency", "trees"),
   ("Weed Removal Request", "trees"),
   ("Water On Street Complaint", "water"),
   ("Sewer Cleaning Inspection Request", "water"),
   ("Check for Leak", "water")]

/-- Category of a 311 `SR_TYPE`: the first table entry whose type name is a
substring of the raw label (`if type_name in sr_type: category = cat; break`),
`none` when nothing matches (the record is then dropped). -/
def classify311 (t : String) : Option String :=
  (type_to_category311.find? (fun p => substrOf p.1 t)).map Prod.snd

/-- One CSV row of the 311 dataset, with coordinates as parse outcomes. -/
structure Row311 where
  sr_type : String
  latR : Option ℚ
  lngR : Option ℚ
  ward : String
  address : String
  created : String
deriving DecidableEq

/-- Per-cell accumulator state of `process_311`. -/
structure Cell311 where
  count : ℕ
  categories : List (String × ℕ)
  ward : Option String
  address : Option String
  recent_count : ℕ
deriving DecidableEq

/-- The defaultdict initial cell of `process_311`. -/
def d311 : Cell311 := ⟨0, [], none, none, 0⟩

/-- Guards of `process_311`: not info-only/aircraft, classifiable, coordinates
parse and lie in the bounding box; a row failing any guard is `continue`d. -/
def acc311 (r : Row311) : Bool :=
  !(substrOf "INFORMATION ONLY" r.sr_type || substrOf "Aircraft" r.sr_type)
    && (classify311 r.sr_type).isSome
    && coordsOK r.latR r.lngR

/-- Grid key of an accepted 311 row. -/
def key311 (r : Row311) : ℚ × ℚ :=
  round_to_block BLOCK_SIZE (r.latR.getD 0) (r.lngR.getD 0)

/-- All `blocks[block_key]` mutations performed for one accepted 311 row:
count, per-category count, `ward`/`address` truthiness latch, recency.  The
date test (`strptime` + 90-day cutoff) is the abstract parameter `g`. -/
def tw311 (g : String → Bool) (r : Row311) (c : Cell311) : Cell311 :=
  { count := c.count + 1
    categories := updAssoc ((classify311 r.sr_type).getD "") (fun n => n + 1) 0
      c.categories
    ward := latch c.ward r.ward
    address := latch c.address r.address
    recent_count := c.recent_count + (if g r.created then 1 else 0) }

/-- One loop iteration of `process_311`. -/
def step311 (g : String → Bool) (s : List ((ℚ × ℚ) × Cell311)) (r : Row311) :
    List ((ℚ × ℚ) × Cell311) :=
  stepG acc311 key311 (tw311 g) d311 s r

/-- The full accumulation loop of `process_311`. -/
def fold311 (g : String → Bool) (rows : List Row311)
    (s : List ((ℚ × ℚ) × Cell311)) : List ((ℚ × ℚ) × Cell311) :=
  foldG acc311 key311 (tw311 g) d311 rows s

/-! ### Crimes (`process-neighborhood-data.py`, `process_crimes`) -/

/-- The flattened `type_to_category` table of `process_crimes`. -/
def crimeCategoryTable : List (String × String) :=
  [("HOMICIDE", "violent"), ("ROBBERY", "violent"), ("ASSAULT", "violent"),
   ("BATTERY", "violent"), ("CRIMINAL SEXUAL ASSAULT", "violent"),
   ("THEFT", "property"), ("BURGLARY", "property"),
   ("MOTOR VEHICLE THEFT", "property"), ("CRIMINAL DAMAGE", "property"),
   ("ARSON", "property"),
   ("NARCOTICS", "drugs"),
   ("WEAPONS VIOLATION", "weapons"),
   ("OTHER OFFENSE", "other"), ("DECEPTIVE PRACTICE", "other"),
   ("CRIMINAL TRESPASS", "other")]

/-- Category of a crime record: exact dictionary lookup with fallback `other`
(`type_to_category.get(crime_type, 'other')`). -/
def classifyCrime (t : String) : String :=
  ((crimeCategoryTable.find? (fun p => decide (p.1 = t))).map Prod.snd).getD
    "other"

/-- One CSV row of the crimes dataset. -/
structure RowCrime where
  primary : String
  latR : Option ℚ
  lngR : Option ℚ
  ward : String
  block : String
  arrest : String
deriving DecidableEq

/-- Per-cell accumulator state of `process_crimes`. -/
structure CellCrime where
  count : ℕ
  categories : List (String × ℕ)
  ward : Option String
  address : Option String
  arrests : ℕ
deriving DecidableEq

/-- The defaultdict initial cell of `process_crimes`. -/
def dCrime : CellCrime := ⟨0, [], none, none, 0⟩

/-- Guards of `process_crimes`: only the coordinate checks (every crime type
classifies, via the `other` fallback). -/
def accCrime (r : RowCrime) : Bool :=
  coordsOK r.latR r.lngR

/-- Grid key of an accepted crime row. -/
def keyCrime (r : RowCrime) : ℚ × ℚ :=
  round_to_block BLOCK_SIZE (r.latR.getD 0) (r.lngR.getD 0)

/-- All mutations for one accepted crime row, including the `ARREST == 'Y'`
counter. -/
def twCrime (r : RowCrime) (c : CellCrime) : CellCrime :=
  { count := c.count + 1
    categories := updAssoc (classifyCrime (pyStrip r.primary)) (fun n => n + 1) 0
      c.categories
    ward := latch c.ward r.ward
    address := latch c.address r.block
    arrests := c.arrests + (if pyUpper r.arrest = "Y" then 1 else 0) }

/-- The full accumulation loop of `process_crimes`. -/
def foldCrimes (rows : List RowCrime) (s : List ((ℚ × ℚ) × CellCrime)) :
    List ((ℚ × ℚ) × CellCrime) :=
  foldG accCrime keyCrime twCrime dCrime rows s

/-! ### Building permits (`process-additional-data.py`, `process_permits`) -/

/-- The `PERMIT_TYPES` keyword table, in dict insertion order. -/
def PERMIT_TYPES : List (String × List String) :=
  [("new_construction", ["NEW CONSTRUCTION", "PERMIT - NEW CONSTRUCTION"]),
   ("renovation", ["PERMIT - RENOVATION/ALTERATION", "RENOVATION", "ALTERATION"]),
   ("electrical", ["PERMIT - ELECTRICAL", "ELECTRICAL"]),
   ("plumbing", ["PERMIT - PLUMBING"]),
   ("signs", ["PERMIT - SIGNS", "SIGN"]),
   ("demolition", ["PERMIT - WRECKING/DEMOLITION", "WRECKING", "DEMOLITION"]),
   ("other", [])]

/-- The `get_permit_type` classifier: first category whose keyword list has a
substring match against the uppercased label, falling back to `other`. -/
def get_permit_type (s : String) : String :=
  ((PERMIT_TYPES.find? (fun p => p.2.any (fun kw => substrOf kw (pyUpper s)))).map
    Prod.fst).getD "other"

/-- One CSV row of the building-permits dataset. -/
structure RowPermA where
  latR : Option ℚ
  lngR : Option ℚ
  permit_type : String
  ward : String
  street_number : String
  street_direction : String
  street_name : String
  reported_cost : String
  issue_date : String
deriving DecidableEq

/-- Per-cell accumulator state of `process_permits` (additional script). -/
structure CellPermA where
  count : ℕ
  categories : List (String × ℕ)
  ward : Option String
  address : Option String
  total_cost : ℚ
  recent_count : ℕ
deriving DecidableEq

/-- The defaultdict initial cell of `process_permits`. -/
def dPermA : CellPermA := ⟨0, [], none, none, 0, 0⟩

/-- Guards of `process_permits`: coordinate parse and bounding box only. -/
def accPermA (r : RowPermA) : Bool :=
  coordsOK r.latR r.lngR

/-- Grid key of an accepted permit row (block size `0.004`). -/
def keyPermA (r : RowPermA) : ℚ × ℚ :=
  round_to_block BLOCK_SIZE_ADD (r.latR.getD 0) (r.lngR.getD 0)

/-- The address string built by `process_permits`:
`f"{STREET_NUMBER} {STREET_DIRECTION} {STREET_NAME}".strip()`. -/
def addrPermA (r : RowPermA) : String :=
  pyStrip (r.street_number ++ " " ++ r.street_direction ++ " " ++ r.street_name)

/-- All mutations for one accepted permit row: count, permit-type category,
`ward`/`address` truthiness latch, the `REPORTED_COST` running sum and the
365-day recency counter (date test abstracted as `g`). -/
def twPermA (g : String → Bool) (r : RowPermA) (c : CellPermA) : CellPermA :=
  { count := c.count + 1
    categories := updAssoc (get_permit_type r.permit_type) (fun n => n + 1) 0
      c.categories
    ward := latch c.ward r.ward
    address := latch c.address (addrPermA r)
    total_cost := c.total_cost + costContribution r.reported_cost
    recent_count := c.recent_count + (if g r.issue_date then 1 else 0) }

/-- The full accumulation loop of `process_permits`. -/
def foldPermA (g : String → Bool) (rows : List RowPermA)
    (s : List ((ℚ × ℚ) × CellPermA)) : List ((ℚ × ℚ) × CellPermA) :=
  foldG accPermA keyPermA (twPermA g) dPermA rows s

/-- Permit score (`process-additional-data.py` line 109):
`min(100, int(count / 100 * 50 + (total_cost / 1000000) * 50))`. -/
def scorePermitsA (c : ℕ) (cost : ℚ) : ℤ :=
  min 100 (pyTrunc ((c : ℚ) / 100 * 50 + cost / 1000000 * 50))

/-- One serialized tuple of the permit `data` array. -/
structure EntryPermA where
  lat : ℚ
  lng : ℚ
  count : ℕ
  score : ℤ
  categories : List (String × ℕ)
  ward : String
  address : String
  total_cost : ℤ
  recent : ℕ
deriving DecidableEq

/-- The filter, serialize and sort phase of `process_permits`: keep cells with
`count >= 5`, emit tuples, sort by count descending. -/
def permitsAddData (g : String → Bool) (rows : List RowPermA) :
    List EntryPermA :=
  let blocks := foldPermA g rows []
  let filtered := blocks.filter (fun kv => 5 ≤ kv.2.count)
  let data := filtered.map (fun kv =>
    { lat := round4 kv.1.1, lng := round4 kv.1.2, count := kv.2.count,
      score := scorePermitsA kv.2.count kv.2.total_cost,
      categories := kv.2.categories, ward := kv.2.ward.getD "",
      address := kv.2.address.getD "", total_cost := pyTrunc kv.2.total_cost,
      recent := kv.2.recent_count : EntryPermA })
  data.insertionSort (fun a b => b.count ≤ a.count)

/-! ### Potholes patched (`process-additional-data.py`, `process_potholes`) -/

/-- One CSV row of the potholes dataset (additional script). -/
structure RowPhA where
  latR : Option ℚ
  lngR : Option ℚ
  ph : Option String
  address : String
  request_date : String
deriving DecidableEq

/-- Per-cell accumulator state of `process_potholes` (additional script). -/
structure CellPhA where
  count : ℕ
  potholes_filled : ℤ
  address : Option String
  recent_count : ℕ
deriving DecidableEq

/-- The defaultdict initial cell of `process_potholes`. -/
def dPhA : CellPhA := ⟨0, 0, none, 0⟩

/-- Amount one row adds to `potholes_filled` in the additional script:
`int(row.get('NUMBER OF POTHOLES FILLED ON BLOCK', 1) or 1)` with
`except: blocks[k]['potholes_filled'] += 1`.  A missing or empty field yields
the default `1`; a string that `int()` rejects also contributes `1`. -/
def phContribution (f : Option String) : ℤ :=
  match f with
  | none => 1
  | some "" => 1
  | some s => (parseIntStr s).getD 1

/-- Guards of `process_potholes` (additional): coordinates only. -/
def accPhA (r : RowPhA) : Bool :=
  coordsOK r.latR r.lngR

/-- Grid key of an accepted pothole row (block size `0.004`). -/
def keyPhA (r : RowPhA) : ℚ × ℚ :=
  round_to_block BLOCK_SIZE_ADD (r.latR.getD 0) (r.lngR.getD 0)

/-- All mutations for one accepted pothole row (additional script). -/
def twPhA (g : String → Bool) (r : RowPhA) (c : CellPhA) : CellPhA :=
  { count := c.count + 1
    potholes_filled := c.potholes_filled + phContribution r.ph
    address := latch c.address r.address
    recent_count := c.recent_count + (if g r.request_date then 1 else 0) }

/-- The full accumulation loop of `process_potholes` (additional script). -/
def foldPhA (g : String → Bool) (rows : List RowPhA)
    (s : List ((ℚ × ℚ) × CellPhA)) : List ((ℚ × ℚ) × CellPhA) :=
  foldG accPhA keyPhA (twPhA g) dPhA rows s

/-- Pothole score (`process-additional-data.py` line 396):
`min(100, int(potholes_filled / 50 * 100))`. -/
def scorePotholesA (filled : ℤ) : ℤ :=
  min 100 (pyTrunc ((filled : ℚ) / 50 * 100))

/-- One serialized tuple of the potholes `data` array (additional script). -/
structure EntryPhA where
  lat : ℚ
  lng : ℚ
  count : ℕ
  filled : ℤ
  score : ℤ
  address : String
  recent : ℕ
deriving DecidableEq

/-- Filter, serialize and sort of `process_potholes` (additional script): keep
cells with `count >= 3`, emit tuples, `data.sort(key=lambda x: -x[3])` — sort
by the potholes-filled sum descending. -/
def potholesAddData (g : String → Bool) (rows : List RowPhA) : List EntryPhA :=
  let blocks := foldPhA g rows []
  let filtered := blocks.filter (fun kv => 3 ≤ kv.2.count)
  let data := filtered.map (fun kv =>
    { lat := round4 kv.1.1, lng := round4 kv.1.2, count := kv.2.count,
      filled := kv.2.potholes_filled,
      score := scorePotholesA kv.2.potholes_filled,
      address := kv.2.address.getD "", recent := kv.2.recent_count : EntryPhA })
  data.insertionSort (fun a b => b.filled ≤ a.filled)

/-! ### Potholes patched (`update-neighborhood-data.py`, `process_potholes`) -/

/-- One API row of the potholes dataset (update script). -/
structure RowPhU where
  latR : Option ℚ
  lngR : Option ℚ
  filledF : Option String
  completion : String
  address : String
deriving DecidableEq

/-- Per-cell accumulator state of `process_potholes` (update script). -/
structure CellPhU where
  count : ℕ
  filled : ℤ
  completed : ℕ
  address : Option String
deriving DecidableEq

/-- The defaultdict initial cell of `process_potholes` (update script). -/
def dPhU : CellPhU := ⟨0, 0, 0, none⟩

/-- Amount one row adds to `filled` in the update script:
`int(row.get('number_of_potholes_filled_on_block', 0) or 0)` inside
`try ... except: pass` — missing, empty and unparsable fields all add `0`. -/
def filledUpdContribution (f : Option String) : ℤ :=
  match f with
  | none => 0
  | some "" => 0
  | some s => (parseIntStr s).getD 0

/-- Guards of `process_potholes` (update): coordinates only. -/
def accPhU (r : RowPhU) : Bool :=
  coordsOK r.latR r.lngR

/-- Grid key of an accepted pothole row (update script, block size `0.002`). -/
def keyPhU (r : RowPhU) : ℚ × ℚ :=
  round_to_block BLOCK_SIZE (r.latR.getD 0) (r.lngR.getD 0)

/-- All mutations for one accepted pothole row (update script): count, the
`filled` sum, the truthy `completion_date` counter and the address latch. -/
def twPhU (r : RowPhU) (c : CellPhU) : CellPhU :=
  { count := c.count + 1
    filled := c.filled + filledUpdContribution r.filledF
    completed := c.completed + (if r.completion ≠ "" then 1 else 0)
    address := latch c.address r.address }

/-- The full accumulation loop of `process_potholes` (update script). -/
def foldPhU (rows : List RowPhU) (s : List ((ℚ × ℚ) × CellPhU)) :
    List ((ℚ × ℚ) × CellPhU) :=
  foldG accPhU keyPhU twPhU dPhU rows s

/-- One serialized tuple of the potholes `data` array (update script):
`[lat, lng, count, filled, completed, address]`, no score. -/
structure EntryPhU where
  lat : ℚ
  lng : ℚ
  count : ℕ
  filled : ℤ
  completed : ℕ
  address : String
deriving DecidableEq

/-- Filter, serialize and sort of `process_potholes` (update script): keep
cells with `count >= 2`, emit tuples, `data.sort(key=lambda x: -x[2])` — sort
by record count descending (not by the filled sum). -/
def potholesUpdData (rows : List RowPhU) : List EntryPhU :=
  let blocks := foldPhU rows []
  let filtered := blocks.filter (fun kv => 2 ≤ kv.2.count)
  let data := filtered.map (fun kv =>
    { lat := round4 kv.1.1, lng := round4 kv.1.2, count := kv.2.count,
      filled := kv.2.filled, completed := kv.2.completed,
      address := kv.2.address.getD "" : EntryPhU })
  data.insertionSort (fun a b => b.count ≤ a.count)

/-! ### Building permits (`update-neighborhood-data.py`, `process_permits`) -/

/-- One API row of the permits dataset (update script). -/
structure RowPermU where
  latR : Option ℚ
  lngR : Option ℚ
  permit_status : String
  reported_cost : String
  street_number : String
  street_direction : String
  street_name : String
deriving DecidableEq

/-- Per-cell accumulator state of `process_permits` (update script). -/
structure CellPermU where
  count : ℕ
  issued : ℕ
  cost : ℚ
  address : Option String
deriving DecidableEq

/-- The defaultdict initial cell of `process_permits` (update script). -/
def dPermU : CellPermU := ⟨0, 0, 0, none⟩

/-- Amount one row adds to `cost` in the update script:
`float(row.get('reported_cost', 0) or 0)` inside `try ... except: pass`. -/
def costUpdContribution (s : String) : ℚ :=
  if s = "" then 0
  else
    match parseDec s with
    | some p => ratOfDec p
    | none => 0

/-- Guards of `process_permits` (update): coordinates only. -/
def accPermU (r : RowPermU) : Bool :=
  coordsOK r.latR r.lngR

/-- Grid key of an accepted permit row (update script, block size `0.002`). -/
def keyPermU (r : RowPermU) : ℚ × ℚ :=
  round_to_block BLOCK_SIZE (r.latR.getD 0) (r.lngR.getD 0)

/-- The address string built by the update script's `process_permits`. -/
def addrPermU (r : RowPermU) : String :=
  pyStrip (r.street_number ++ " " ++ r.street_direction ++ " " ++ r.street_name)

/-- All mutations for one accepted permit row (update script): count, the
`ISSUED`/`COMPLETE` status counter, the cost sum and the address latch. -/
def twPermU (r : RowPermU) (c : CellPermU) : CellPermU :=
  { count := c.count + 1
    issued := c.issued +
      (if substrOf "ISSUED" (pyUpper r.permit_status)
          || substrOf "COMPLETE" (pyUpper r.permit_status) then 1 else 0)
    cost := c.cost + costUpdContribution r.reported_cost
    address := latch c.address (addrPermU r) }

/-- The full accumulation loop of `process_permits` (update script). -/
def foldPermU (rows : List RowPermU) (s : List ((ℚ × ℚ) × CellPermU)) :
    List ((ℚ × ℚ) × CellPermU) :=
  foldG accPermU keyPermU twPermU dPermU rows s

/-- One serialized tuple of the permits `data` array (update script):
`[lat, lng, count, issued, int(cost), address]`. -/
structure EntryPermU where
  lat : ℚ
  lng : ℚ
  count : ℕ
  issued : ℕ
  cost : ℤ
  address : String
deriving DecidableEq

/-- Filter, serialize and sort of `process_permits` (update script): keep
cells with `count >= 2`, emit tuples, sort by count descending. -/
def permitsUpdData (rows : List RowPermU) : List EntryPermU :=
  let blocks := foldPermU rows []
  let filtered := blocks.filter (fun kv => 2 ≤ kv.2.count)
  let data := filtered.map (fun kv =>
    { lat := round4 kv.1.1, lng := round4 kv.1.2, count := kv.2.count,
      issued := kv.2.issued, cost := pyTrunc kv.2.cost,
      address := kv.2.address.getD "" : EntryPermU })
  data.insertionSort (fun a b => b.count ≤ a.count)

/-! ### Camera violations (`process-additional-data.py`,
`process_camera_violations`, red-light branch; the speed branch is identical
except for the `intersection` field) -/

/-- One CSV row of the red-light camera dataset.  The three numeric fields
carry the outcome of `int(float(VIOLATIONS or 0))`, `float(LATITUDE or 0)` and
`float(LONGITUDE or 0)`; `none` means the shared `try` block raised, skipping
the row. -/
structure RowCam where
  cameraId : String
  violR : Option ℚ
  latF : Option ℚ
  lngF : Option ℚ
  address : String
  intersection : String
deriving DecidableEq

/-- Per-camera accumulator of `process_camera_violations`. -/
structure CellCam where
  violations : ℤ
  lat : ℚ
  lng : ℚ
  address : String
  intersection : String
deriving DecidableEq

/-- The defaultdict initial camera record
(`{'violations': 0, 'lat': 0, 'lng': 0, 'address': '', 'intersection': ''}`). -/
def dCam : CellCam := ⟨0, 0, 0, "", ""⟩

/-- Acceptance condition of one camera row:
`if camera_id and violations > 0 and lat and lng` (after all parses succeed;
float truthiness means nonzero). -/
def accCam (r : RowCam) : Bool :=
  match r.violR, r.latF, r.lngF with
  | some v, some la, some ln =>
      decide (r.cameraId ≠ "") && decide (0 < pyTrunc v)
        && decide (la ≠ 0) && decide (ln ≠ 0)
  | _, _, _ => false

/-- Aggregation key: the camera id, not a grid cell. -/
def keyCam (r : RowCam) : String := r.cameraId

/-- All mutations for one accepted camera row: violations accumulate, while
`lat`/`lng`/`address`/`intersection` are overwritten each time
(last-writer-wins, not latch). -/
def twCam (r : RowCam) (c : CellCam) : CellCam :=
  { violations := c.violations + pyTrunc (r.violR.getD 0)
    lat := r.latF.getD 0
    lng := r.lngF.getD 0
    address := r.address
    intersection := r.intersection }

/-- The full red-light accumulation loop. -/
def foldCam (rows : List RowCam) (s : List (String × CellCam)) :
    List (String × CellCam) :=
  foldG accCam keyCam twCam dCam rows s

/-- One serialized tuple of the red-light `data` array:
`[round(lat,5), round(lng,5), violations, cam_id, intersection or address]`. -/
structure EntryCam where
  lat : ℚ
  lng : ℚ
  violations : ℤ
  cameraId : String
  display : String
deriving DecidableEq

/-- Filter, serialize and sort of the red-light output: keep cameras with
`violations >= 100`, emit tuples, sort by violations descending. -/
def rlData (rows : List RowCam) : List EntryCam :=
  let cams := foldCam rows []
  let kept := cams.filter (fun kv => 100 ≤ kv.2.violations)
  let data := kept.map (fun kv =>
    { lat := round5 kv.2.lat, lng := round5 kv.2.lng,
      violations := kv.2.violations, cameraId := kv.1,
      display := if kv.2.intersection ≠ "" then kv.2.intersection
                 else kv.2.address : EntryCam })
  data.insertionSort (fun a b => b.violations ≤ a.violations)

/-! ### Remaining per-dataset cells, filters and score formulas -/

/-- Per-cell accumulator state of `process_crashes` (both scripts build the
same fields). -/
structure CellCrash where
  count : ℕ
  injuries : ℤ
  fatal : ℤ
  hit_and_run : ℕ
  address : Option String
deriving DecidableEq

/-- Per-cell accumulator state of `process_licenses`
(`process-additional-data.py`). -/
structure CellLicA where
  count : ℕ
  categories : List (String × ℕ)
  ward : Option String
  address : Option String
  active : ℕ
deriving DecidableEq

/-- Per-cell accumulator state of `process_licenses`
(`update-neighborhood-data.py`). -/
structure CellLicU where
  count : ℕ
  active : ℕ
  address : Option String
deriving DecidableEq

/-- Per-cell accumulator state of `process_violations`
(`update-neighborhood-data.py`). -/
structure CellViolU where
  count : ℕ
  high_risk : ℕ
  openCount : ℕ
  address : Option String
deriving DecidableEq

/-- Filter of `process_311` (`process-neighborhood-data.py` line 125):
`{k: v for k, v in blocks.items() if v['count'] >= 3}`. -/
def filter311N (blocks : List ((ℚ × ℚ) × Cell311)) :
    List ((ℚ × ℚ) × Cell311) :=
  blocks.filter (fun kv => 3 ≤ kv.2.count)

/-- Filter of `process_crimes` (`process-neighborhood-data.py` line 235):
threshold 2. -/
def filterCrimesN (blocks : List ((ℚ × ℚ) × CellCrime)) :
    List ((ℚ × ℚ) × CellCrime) :=
  blocks.filter (fun kv => 2 ≤ kv.2.count)

/-- Filter of `process_crashes` (`process-neighborhood-data.py` line 335):
threshold 3. -/
def filterCrashesN (blocks : List ((ℚ × ℚ) × CellCrash)) :
    List ((ℚ × ℚ) × CellCrash) :=
  blocks.filter (fun kv => 3 ≤ kv.2.count)

/-- Filter of `process_permits` (`process-additional-data.py` line 104):
threshold 5. -/
def filterPermitsA (blocks : List ((ℚ × ℚ) × CellPermA)) :
    List ((ℚ × ℚ) × CellPermA) :=
  blocks.filter (fun kv => 5 ≤ kv.2.count)

/-- Filter of `process_licenses` (`process-additional-data.py` line 208):
threshold 3. -/
def filterLicensesA (blocks : List ((ℚ × ℚ) × CellLicA)) :
    List ((ℚ × ℚ) × CellLicA) :=
  blocks.filter (fun kv => 3 ≤ kv.2.count)

/-- Filter of `process_potholes` (`process-additional-data.py` line 391):
threshold 3. -/
def filterPotholesA (blocks : List ((ℚ × ℚ) × CellPhA)) :
    List ((ℚ × ℚ) × CellPhA) :=
  blocks.filter (fun kv => 3 ≤ kv.2.count)

/-- Filter of `process_311` (`update-neighborhood-data.py` line 128):
threshold 3. -/
def filter311U (blocks : List ((ℚ × ℚ) × Cell311)) :
    List ((ℚ × ℚ) × Cell311) :=
  blocks.filter (fun kv => 3 ≤ kv.2.count)

/-- Filter of `process_crimes` (`update-neighborhood-data.py` line 236):
threshold 2. -/
def filterCrimesU (blocks : List ((ℚ × ℚ) × CellCrime)) :
    List ((ℚ × ℚ) × CellCrime) :=
  blocks.filter (fun kv => 2 ≤ kv.2.count)

/-- Filter of `process_crashes` (`update-neighborhood-data.py` line 336):
threshold 3. -/
def filterCrashesU (blocks : List ((ℚ × ℚ) × CellCrash)) :
    List ((ℚ × ℚ) × CellCrash) :=
  blocks.filter (fun kv => 3 ≤ kv.2.count)

/-- Filter of `process_violations` (`update-neighborhood-data.py` line 433):
threshold 2. -/
def filterViolationsU (blocks : List ((ℚ × ℚ) × CellViolU)) :
    List ((ℚ × ℚ) × CellViolU) :=
  blocks.filter (fun kv => 2 ≤ kv.2.count)

/-- Filter of `process_potholes` (`update-neighborhood-data.py` line 517):
threshold 2. -/
def filterPotholesU (blocks : List ((ℚ × ℚ) × CellPhU)) :
    List ((ℚ × ℚ) × CellPhU) :=
  blocks.filter (fun kv => 2 ≤ kv.2.count)

/-- Filter of `process_permits` (`update-neighborhood-data.py` line 603):
threshold 2. -/
def filterPermitsU (blocks : List ((ℚ × ℚ) × CellPermU)) :
    List ((ℚ × ℚ) × CellPermU) :=
  blocks.filter (fun kv => 2 ≤ kv.2.count)

/-- Filter of `process_licenses` (`update-neighborhood-data.py` line 680):
threshold 2. -/
def filterLicensesU (blocks : List ((ℚ × ℚ) × CellLicU)) :
    List ((ℚ × ℚ) × CellLicU) :=
  blocks.filter (fun kv => 2 ≤ kv.2.count)

/-- 311 activity score (`process-neighborhood-data.py` line 132):
`min(100, int(count / 50 * 100))`. -/
def score311 (c : ℕ) : ℤ :=
  min 100 (pyTrunc ((c : ℚ) / 50 * 100))

/-- Crime severity score (`process-neighborhood-data.py` line 243):
`min(100, int((violent*3 + property) / count * 50 + count / 20 * 25))`. -/
def scoreCrimes (violent property c : ℕ) : ℤ :=
  min 100 (pyTrunc (((violent : ℚ) * 3 + (property : ℚ)) / (c : ℚ) * 50
    + (c : ℚ) / 20 * 25))

/-- Crash danger score (`process-neighborhood-data.py` lines 341-346), with
the script's explicit division guard for `injury_rate`. -/
def scoreCrashes (injuries fatal : ℤ) (c : ℕ) : ℤ :=
  min 100 (pyTrunc ((fatal : ℚ) * 20
    + (if 0 < c then (injuries : ℚ) / (c : ℚ) else 0) * 30
    + (c : ℚ) / 50 * 30))

/-- License score (`process-additional-data.py` line 213):
`min(100, int(count / 50 * 100))`. -/
def scoreLicensesA (c : ℕ) : ℤ :=
  min 100 (pyTrunc ((c : ℚ) / 50 * 100))

/-- Building-violation score (`update-neighborhood-data.py` line 438):
`min(100, int(high_risk * 10 + count / 10 * 50))`. -/
def scoreViolationsU (highRisk c : ℕ) : ℤ :=
  min 100 (pyTrunc ((highRisk : ℚ) * 10 + (c : ℚ) / 10 * 50))

/-! ### Claim theorems -/

/-- C9: quantization is idempotent: applying `round_to_block` to an
already-quantized pair returns the same pair (for any nonzero block size, in
particular the two used by the scripts). -/
theorem C9_theorem (bs lat lng : ℚ) (hbs : bs ≠ 0) :
    round_to_block bs (round_to_block bs lat lng).1
      (round_to_block bs lat lng).2 = round_to_block bs lat lng := by
  unfold round_to_block
  simp only
  have h1 : ((pyRound (lat / bs) : ℚ) * bs) / bs = ((pyRound (lat / bs) : ℤ) : ℚ) :=
    mul_div_cancel_right₀ _ hbs
  have h2 : ((pyRound (lng / bs) : ℚ) * bs) / bs = ((pyRound (lng / bs) : ℤ) : ℚ) :=
    mul_div_cancel_right₀ _ hbs
  rw [h1, h2, pyRound_intCast, pyRound_intCast]

/-- C9 witness: idempotence at a concrete in-box coordinate pair with the
neighborhood block size. -/
theorem C9_witness :
    round_to_block BLOCK_SIZE (round_to_block BLOCK_SIZE 41.8 (-87.7)).1
      (round_to_block BLOCK_SIZE 41.8 (-87.7)).2
      = round_to_block BLOCK_SIZE 41.8 (-87.7) :=
  C9_theorem BLOCK_SIZE 41.8 (-87.7) (by norm_num [BLOCK_SIZE])

/-- C1 counterexample: at the in-box pair `(41.997, -87.7)` the scripts'
`round_to_block` (Python `round`, banker's rounding: `41.997 / 0.002 =
20998.5` rounds to the even `20998`) differs from the specification's
round-half-away-from-zero quantization (which would give `20999`). -/
theorem C1_counterexample :
    inBounds 41.997 (-87.7) = true ∧
    round_to_block BLOCK_SIZE 41.997 (-87.7)
      ≠ round_to_block_spec BLOCK_SIZE 41.997 (-87.7) := by
  have hq : (41.997 : ℚ) / BLOCK_SIZE = 41997 / 2 := by
    norm_num [BLOCK_SIZE]
  have hfl : ⌊(41997 / 2 : ℚ)⌋ = 20998 := by
    norm_num [Int.floor_eq_iff]
  have hpy : pyRound ((41.997 : ℚ) / BLOCK_SIZE) = 20998 := by
    rw [hq]
    simp only [pyRound, hfl]
    norm_num
  have haw : roundAway ((41.997 : ℚ) / BLOCK_SIZE) = 20999 := by
    rw [hq]
    simp only [roundAway, hfl]
    norm_num
  refine ⟨by simp [inBounds]; norm_num, fun hEq => ?_⟩
  have h1 := congrArg Prod.fst hEq
  simp only [round_to_block, round_to_block_spec, hpy, haw] at h1
  rw [BLOCK_SIZE] at h1
  norm_num at h1

/-- C1 (amended): for every pair accepted by the bounding-box check,
`round_to_block` returns the multiples of the block size whose quotients are
the integers nearest `lat/bs` and `lng/bs`, with a quotient exactly halfway
between two integers rounded to the even integer (Python's banker's rounding),
not away from zero. -/
theorem C1_theorem (bs lat lng : ℚ) (h : inBounds lat lng = true) :
    ∃ m n : ℤ,
      round_to_block bs lat lng = ((m : ℚ) * bs, (n : ℚ) * bs) ∧
      |lat / bs - m| ≤ 1/2 ∧ (|lat / bs - m| = 1/2 → 2 ∣ m) ∧
      |lng / bs - n| ≤ 1/2 ∧ (|lng / bs - n| = 1/2 → 2 ∣ n) :=
  ⟨pyRound (lat / bs), pyRound (lng / bs), rfl,
    (pyRound_close (lat / bs)).1, (pyRound_close (lat / bs)).2,
    (pyRound_close (lng / bs)).1, (pyRound_close (lng / bs)).2⟩

/-- C1 witness: the amended statement at the in-box pair `(41.8, -87.7)` with
the neighborhood block size. -/
theorem C1_witness :
    ∃ m n : ℤ,
      round_to_block BLOCK_SIZE 41.8 (-87.7) = ((m : ℚ) * BLOCK_SIZE, (n : ℚ) * BLOCK_SIZE) ∧
      |41.8 / BLOCK_SIZE - m| ≤ 1/2 ∧ (|41.8 / BLOCK_SIZE - m| = 1/2 → 2 ∣ m) ∧
      |(-87.7) / BLOCK_SIZE - n| ≤ 1/2 ∧ (|(-87.7) / BLOCK_SIZE - n| = 1/2 → 2 ∣ n) :=
  C1_theorem BLOCK_SIZE 41.8 (-87.7) (by simp [inBounds]; norm_num)

/-- C6: a 311 record whose coordinates fail to parse or fall outside the
bounding box is excluded from accumulation with no change to any cell state,
and processing of the remaining records continues unaffected. -/
theorem C6_theorem (g : String → Bool) (s : List ((ℚ × ℚ) × Cell311))
    (r : Row311) (h : coordsOK r.latR r.lngR = false) :
    step311 g s r = s ∧
      ∀ rows : List Row311, fold311 g (r :: rows) s = fold311 g rows s := by
  have hacc : acc311 r = false := by
    rw [acc311, h, Bool.and_false]
  have hstep : stepG acc311 key311 (tw311 g) d311 s r = s := by
    rw [stepG, if_neg (by simp [hacc])]
  exact ⟨hstep, fun rows => by simp only [fold311]; rw [foldG_cons, hstep]⟩

/-- A concrete 311 record at latitude 43.0 (outside the envelope). -/
def row43 : Row311 :=
  { sr_type := "Pothole in Street Complaint", latR := some 43.0,
    lngR := some (-87.7), ward := "1", address := "100 N STATE ST",
    created := "01/01/2025" }

/-- C6 witness: the record at latitude 43.0 never creates or affects any cell,
starting from the empty accumulator. -/
theorem C6_witness :
    step311 (fun _ => false) [] row43 = [] ∧
      ∀ rows : List Row311,
        fold311 (fun _ => false) (row43 :: rows) [] =
          fold311 (fun _ => false) rows [] :=
  C6_theorem (fun _ => false) [] row43
    (by simp [row43, coordsOK, inBounds]; norm_num)

/-- C8: every dataset score formula, evaluated at any cell state that reaches
the scoring phase (count at least the dataset threshold, all accumulators
non-negative), is an integer in `[0, 100]`. -/
theorem C8_theorem :
    (∀ c : ℕ, 3 ≤ c → 0 ≤ score311 c ∧ score311 c ≤ 100) ∧
    (∀ (c : ℕ) (cost : ℚ), 5 ≤ c → 0 ≤ cost →
      0 ≤ scorePermitsA c cost ∧ scorePermitsA c cost ≤ 100) ∧
    (∀ c : ℕ, 3 ≤ c → 0 ≤ scoreLicensesA c ∧ scoreLicensesA c ≤ 100) ∧
    (∀ violent property c : ℕ, 2 ≤ c →
      0 ≤ scoreCrimes violent property c ∧ scoreCrimes violent property c ≤ 100) ∧
    (∀ (injuries fatal : ℤ) (c : ℕ), 3 ≤ c → 0 ≤ injuries → 0 ≤ fatal →
      0 ≤ scoreCrashes injuries fatal c ∧ scoreCrashes injuries fatal c ≤ 100) ∧
    (∀ highRisk c : ℕ, 2 ≤ c →
      0 ≤ scoreViolationsU highRisk c ∧ scoreViolationsU highRisk c ≤ 100) ∧
    (∀ filled : ℤ, 0 ≤ filled →
      0 ≤ scorePotholesA filled ∧ scorePotholesA filled ≤ 100) := by
  refine ⟨fun c _ => ⟨?_, min_le_left _ _⟩,
    fun c cost _ hcost => ⟨?_, min_le_left _ _⟩,
    fun c _ => ⟨?_, min_le_left _ _⟩,
    fun v p c _ => ⟨?_, min_le_left _ _⟩,
    fun inj fat c _ hinj hfat => ⟨?_, min_le_left _ _⟩,
    fun hr c _ => ⟨?_, min_le_left _ _⟩,
    fun f hf => ⟨?_, min_le_left _ _⟩⟩
  · exact le_min (by norm_num) (pyTrunc_nonneg (by positivity))
  · exact le_min (by norm_num) (pyTrunc_nonneg (by positivity))
  · exact le_min (by norm_num) (pyTrunc_nonneg (by positivity))
  · exact le_min (by norm_num) (pyTrunc_nonneg (by positivity))
  · refine le_min (by norm_num) (pyTrunc_nonneg ?_)
    have hfatq : (0 : ℚ) ≤ (fat : ℚ) := by exact_mod_cast hfat
    have hinjq : (0 : ℚ) ≤ (inj : ℚ) := by exact_mod_cast hinj
    have h1 : (0 : ℚ) ≤ (fat : ℚ) * 20 := mul_nonneg hfatq (by norm_num)
    have h2 : (0 : ℚ) ≤ (if 0 < c then (inj : ℚ) / (c : ℚ) else 0) := by
      split_ifs
      · positivity
      · exact le_refl 0
    have h2m : (0 : ℚ) ≤ (if 0 < c then (inj : ℚ) / (c : ℚ) else 0) * 30 :=
      mul_nonneg h2 (by norm_num)
    have h3 : (0 : ℚ) ≤ (c : ℚ) / 50 * 30 := by positivity
    linarith
  · exact le_min (by norm_num) (pyTrunc_nonneg (by positivity))
  · refine le_min (by norm_num) (pyTrunc_nonneg ?_)
    have : (0 : ℚ) ≤ (f : ℚ) := by exact_mod_cast hf
    positivity

/-- C8 witness: bounds at concrete counter values for each formula. -/
theorem C8_witness :
    (0 ≤ score311 3 ∧ score311 3 ≤ 100) ∧
    (0 ≤ scorePermitsA 5 12345 ∧ scorePermitsA 5 12345 ≤ 100) ∧
    (0 ≤ scoreLicensesA 3 ∧ scoreLicensesA 3 ≤ 100) ∧
    (0 ≤ scoreCrimes 1 1 2 ∧ scoreCrimes 1 1 2 ≤ 100) ∧
    (0 ≤ scoreCrashes 4 1 3 ∧ scoreCrashes 4 1 3 ≤ 100) ∧
    (0 ≤ scoreViolationsU 2 2 ∧ scoreViolationsU 2 2 ≤ 100) ∧
    (0 ≤ scorePotholesA 40 ∧ scorePotholesA 40 ≤ 100) :=
  ⟨C8_theorem.1 3 (by norm_num),
   C8_theorem.2.1 5 12345 (by norm_num) (by norm_num),
   C8_theorem.2.2.1 3 (by norm_num),
   C8_theorem.2.2.2.1 1 1 2 (by norm_num),
   C8_theorem.2.2.2.2.1 4 1 3 (by norm_num) (by norm_num) (by norm_num),
   C8_theorem.2.2.2.2.2.1 2 2 (by norm_num),
   C8_theorem.2.2.2.2.2.2 40 (by norm_num)⟩

/-! ### Concrete evaluation helpers -/

theorem inBounds_418 : inBounds 41.8 (-87.7) = true := by
  simp [inBounds]
  norm_num

theorem inBounds_419 : inBounds 41.9 (-87.7) = true := by
  simp [inBounds]
  norm_num

theorem keyN_418 : round_to_block BLOCK_SIZE 41.8 (-87.7) = (41.8, -87.7) := by
  rw [round_to_block_eq BLOCK_SIZE 41.8 (-87.7) 20900 (-43850)
    (by norm_num [BLOCK_SIZE]) (by norm_num [BLOCK_SIZE])]
  norm_num [BLOCK_SIZE, Prod.ext_iff]

theorem keyN_419 : round_to_block BLOCK_SIZE 41.9 (-87.7) = (41.9, -87.7) := by
  rw [round_to_block_eq BLOCK_SIZE 41.9 (-87.7) 20950 (-43850)
    (by norm_num [BLOCK_SIZE]) (by norm_num [BLOCK_SIZE])]
  norm_num [BLOCK_SIZE, Prod.ext_iff]

theorem keyA_418 : round_to_block BLOCK_SIZE_ADD 41.8 (-87.7) = (41.8, -87.7) := by
  rw [round_to_block_eq BLOCK_SIZE_ADD 41.8 (-87.7) 10450 (-21925)
    (by norm_num [BLOCK_SIZE_ADD]) (by norm_num [BLOCK_SIZE_ADD])]
  norm_num [BLOCK_SIZE_ADD, Prod.ext_iff]

theorem keyA_419 : round_to_block BLOCK_SIZE_ADD 41.9 (-87.7) = (41.9, -87.7) := by
  rw [round_to_block_eq BLOCK_SIZE_ADD 41.9 (-87.7) 10475 (-21925)
    (by norm_num [BLOCK_SIZE_ADD]) (by norm_num [BLOCK_SIZE_ADD])]
  norm_num [BLOCK_SIZE_ADD, Prod.ext_iff]

theorem round4_418 : round4 41.8 = 41.8 := by
  rw [round4_eq 41.8 418000 (by norm_num)]
  norm_num

theorem round4_419 : round4 41.9 = 41.9 := by
  rw [round4_eq 41.9 419000 (by norm_num)]
  norm_num

theorem round4_877 : round4 (-87.7) = -87.7 := by
  rw [round4_eq (-87.7) (-877000) (by norm_num)]
  norm_num

/-- Sum of the constant-one map is the length (record count). -/
theorem sum_map_one {ρ : Type} (l : List ρ) :
    (l.map (fun _ => (1 : ℕ))).sum = l.length := by
  induction l with
  | nil => rfl
  | cons r l ih => simp [ih, Nat.add_comm]

/-- Bumping one category counter in the nested `categories` defaultdict. -/
theorem catCount_updAssoc (cat cat' : String) (cats : List (String × ℕ)) :
    (lookA (updAssoc cat' (fun n => n + 1) 0 cats) cat).getD 0 =
      (lookA cats cat).getD 0 + (if cat' = cat then 1 else 0) := by
  by_cases h : cat' = cat
  · subst h
    rw [lookA_updAssoc_self, if_pos rfl]
    cases lookA cats cat' <;> simp
  · rw [lookA_updAssoc_ne _ _ _ (fun hc => h hc.symm), if_neg h, add_zero]

/-! ### C4: latch behaviour of `ward`/`address` -/

/-- Helper: a permit row at `(41.8, -87.7)` carrying the given `WARD` value. -/
def rowPermWard (w : String) : RowPermA :=
  { latR := some 41.8, lngR := some (-87.7), permit_type := "", ward := w,
    street_number := "", street_direction := "", street_name := "",
    reported_cost := "", issue_date := "" }

theorem accPermA_rowPermWard (w : String) :
    accPermA (rowPermWard w) = true := by
  simp [accPermA, rowPermWard, coordsOK, inBounds_418]

theorem keyPermA_rowPermWard (w : String) :
    keyPermA (rowPermWard w) = (41.8, -87.7) := by
  simp only [keyPermA, rowPermWard, Option.getD_some]
  exact keyA_418

/-- C4 counterexample: the `ward` field is not latch-on-first-write.  Folding
a first permit record whose `WARD` is the empty string stores `""`, and a
second record at the same cell with `WARD = "7"` then overwrites it: the final
value is `"7"`, not the first record's value `""`. -/
theorem C4_counterexample :
    measureAt CellPermA.ward dPermA
      (foldPermA (fun _ => false) [rowPermWard ""] []) (41.8, -87.7)
      = some "" ∧
    measureAt CellPermA.ward dPermA
      (foldPermA (fun _ => false) [rowPermWard "", rowPermWard "7"] [])
      (41.8, -87.7) = some "7" ∧
    (rowPermWard "").ward = "" ∧ (some "7" : Option String) ≠ some "" := by
  have hinner : stepG accPermA keyPermA (twPermA (fun _ => false)) dPermA []
      (rowPermWard "") =
      [((41.8, -87.7), twPermA (fun _ => false) (rowPermWard "") dPermA)] := by
    rw [stepG, if_pos (accPermA_rowPermWard ""), keyPermA_rowPermWard]
    rfl
  refine ⟨?_, ?_, rfl, by simp⟩
  · rw [foldPermA, foldG_cons, foldG_nil, hinner]
    simp [measureAt, lookA, twPermA, dPermA, latch, rowPermWard]
  · rw [foldPermA, foldG_cons, foldG_cons, foldG_nil, hinner, stepG,
      if_pos (accPermA_rowPermWard "7"), keyPermA_rowPermWard]
    rw [measureAt, lookA_updAssoc_self]
    simp [lookA, twPermA, dPermA, latch, rowPermWard]

/-- C4 (amended): `ward` and `address` are latch-on-first-truthy-write
fields: for every fold sequence the final value of a created cell is the first
non-empty value carried by the records folded into that cell (in input
order), or the empty string if every such record carried an empty value; a
cell no record hit holds the initial `None`.  A later record can therefore
replace a stored empty string, but never a stored non-empty one. -/
theorem C4_theorem (g : String → Bool) (rows : List RowPermA) (k : ℚ × ℚ) :
    measureAt CellPermA.ward dPermA (foldPermA g rows []) k =
      (if ((rows.filter (hitsG accPermA keyPermA k)).map RowPermA.ward).isEmpty
       then none
       else some ((((rows.filter (hitsG accPermA keyPermA k)).map
         RowPermA.ward).find? (fun w => decide (w ≠ ""))).getD "")) ∧
    measureAt CellPermA.address dPermA (foldPermA g rows []) k =
      (if ((rows.filter (hitsG accPermA keyPermA k)).map addrPermA).isEmpty
       then none
       else some ((((rows.filter (hitsG accPermA keyPermA k)).map
         addrPermA).find? (fun w => decide (w ≠ ""))).getD "")) := by
  constructor
  · rw [foldPermA, foldG_latch accPermA keyPermA (twPermA g) dPermA
      CellPermA.ward RowPermA.ward (fun r a _ => rfl) rows [] k]
    exact foldl_latch_none _
  · rw [foldPermA, foldG_latch accPermA keyPermA (twPermA g) dPermA
      CellPermA.address addrPermA (fun r a _ => rfl) rows [] k]
    exact foldl_latch_none _

/-! ### C5: numeric field parsing and accumulation -/

theorem stripCost_example : stripCost "$12,345.67" = "12345.67" := by decide

theorem parseDec_example : parseDec "12345.67" = some (1234567, 2) := by decide

theorem costContribution_example : costContribution "$12,345.67" = 12345.67 := by
  rw [costContribution]
  simp only [stripCost_example, parseDec_example, if_neg (by decide : ¬ ("12345.67" : String) = "")]
  norm_num [ratOfDec]

theorem costContribution_empty : costContribution "" = 0 := by
  have h : stripCost "" = "" := by decide
  rw [costContribution]
  simp [h]

theorem costContribution_malformed : costContribution "12.3.4" = 0 := by
  have h : stripCost "12.3.4" = "12.3.4" := by decide
  have hp : parseDec "12.3.4" = none := by decide
  rw [costContribution]
  simp [h, hp]

/-- Helper: a pothole row (additional script) at `(41.8, -87.7)` with the
given raw potholes-filled field. -/
def rowPotholeF (f : Option String) : RowPhA :=
  { latR := some 41.8, lngR := some (-87.7), ph := f, address := "",
    request_date := "" }

theorem accPhA_rowPotholeF (f : Option String) :
    accPhA (rowPotholeF f) = true := by
  simp [accPhA, rowPotholeF, coordsOK, inBounds_418]

/-- C5 counterexample: in `process_potholes` of the additional script an
*empty* potholes-filled field contributes `1`, not `0`: after folding a single
record whose field is the empty string the cell's `potholes_filled` sum is
`1`, while `count` is `1` (the record itself was accumulated). -/
theorem C5_counterexample :
    measureAt CellPhA.potholes_filled dPhA
      (foldPhA (fun _ => false) [rowPotholeF (some "")] []) (41.8, -87.7)
      = 1 ∧
    measureAt CellPhA.count dPhA
      (foldPhA (fun _ => false) [rowPotholeF (some "")] []) (41.8, -87.7)
      = 1 ∧
    (1 : ℤ) ≠ 0 := by
  have hkey : keyPhA (rowPotholeF (some "")) = (41.8, -87.7) := by
    simp only [keyPhA, rowPotholeF, Option.getD_some]
    exact keyA_418
  refine ⟨?_, ?_, by norm_num⟩
  · rw [foldPhA, foldG_cons, foldG_nil, stepG,
      if_pos (accPhA_rowPotholeF (some "")), hkey]
    simp [measureAt, lookA, twPhA, dPhA, phContribution, rowPotholeF]
  · rw [foldPhA, foldG_cons, foldG_nil, stepG,
      if_pos (accPhA_rowPotholeF (some "")), hkey]
    simp [measureAt, lookA, twPhA, dPhA, rowPotholeF]

/-- C5 (amended): dataset-specific numeric fields are summed per record
without aborting the record on a parse failure, but the failure defaults are
field-specific.  For permit costs: each accepted record adds
`costContribution` of its raw `REPORTED_COST` (so `"$12,345.67"` adds
`12345.67`, and an empty or malformed field adds exactly `0`) while `count`
still increments for every accepted record.  For the potholes dataset of the
additional script, a missing, empty or unparsable potholes-filled field
contributes `1` (the `or 1` default and the `except: += 1` branch), not `0`;
in the update script, the same field contributes `0` on failure. -/
theorem C5_theorem :
    (∀ (g : String → Bool) (rows : List RowPermA) (k : ℚ × ℚ),
      measureAt CellPermA.total_cost dPermA (foldPermA g rows []) k =
        ((rows.filter (hitsG accPermA keyPermA k)).map
          (fun r => costContribution r.reported_cost)).sum) ∧
    (∀ (g : String → Bool) (rows : List RowPermA) (k : ℚ × ℚ),
      measureAt CellPermA.count dPermA (foldPermA g rows []) k =
        (rows.filter (hitsG accPermA keyPermA k)).length) ∧
    costContribution "$12,345.67" = 12345.67 ∧
    costContribution "" = 0 ∧ costContribution "12.3.4" = 0 ∧
    (∀ (g : String → Bool) (rows : List RowPhA) (k : ℚ × ℚ),
      measureAt CellPhA.potholes_filled dPhA (foldPhA g rows []) k =
        ((rows.filter (hitsG accPhA keyPhA k)).map
          (fun r => phContribution r.ph)).sum) ∧
    (∀ (g : String → Bool) (rows : List RowPhA) (k : ℚ × ℚ),
      measureAt CellPhA.count dPhA (foldPhA g rows []) k =
        (rows.filter (hitsG accPhA keyPhA k)).length) ∧
    phContribution (some "") = 1 ∧ phContribution none = 1 ∧
    phContribution (some "12 potholes") = 1 ∧ phContribution (some "7") = 7 ∧
    filledUpdContribution (some "") = 0 ∧
    filledUpdContribution (some "12 potholes") = 0 := by
  refine ⟨fun g rows k => ?_, fun g rows k => ?_, costContribution_example,
    costContribution_empty, costContribution_malformed,
    fun g rows k => ?_, fun g rows k => ?_,
    rfl, rfl, by decide, by decide, rfl, by decide⟩
  · rw [foldPermA, foldG_measure accPermA keyPermA (twPermA g) dPermA
      CellPermA.total_cost (fun r => costContribution r.reported_cost)
      (fun r a _ => rfl) rows [] k]
    simp [measureAt, lookA, dPermA]
  · rw [foldPermA, foldG_measure accPermA keyPermA (twPermA g) dPermA
      CellPermA.count (fun _ => (1 : ℕ)) (fun r a _ => rfl) rows [] k,
      sum_map_one]
    simp [measureAt, lookA, dPermA]
  · rw [foldPhA, foldG_measure accPhA keyPhA (twPhA g) dPhA
      CellPhA.potholes_filled (fun r => phContribution r.ph)
      (fun r a _ => rfl) rows [] k]
    simp [measureAt, lookA, dPhA]
  · rw [foldPhA, foldG_measure accPhA keyPhA (twPhA g) dPhA
      CellPhA.count (fun _ => (1 : ℕ)) (fun r a _ => rfl) rows [] k,
      sum_map_one]
    simp [measureAt, lookA, dPhA]

/-! ### C7: order-insensitivity of the fold -/

/-- Helper: a valid (classifiable, in-box) 311 row at `(41.8, -87.7)` with the
given `WARD` value. -/
def row311W (w : String) : Row311 :=
  { sr_type := "Pothole in Street Complaint", latR := some 41.8,
    lngR := some (-87.7), ward := w, address := "100 N STATE ST",
    created := "" }

theorem acc311_row311W (w : String) : acc311 (row311W w) = true := by
  have hstr : (!(substrOf "INFORMATION ONLY" "Pothole in Street Complaint"
      || substrOf "Aircraft" "Pothole in Street Complaint")
      && (classify311 "Pothole in Street Complaint").isSome) = true := by
    decide
  simp only [acc311, row311W]
  rw [hstr]
  simp [coordsOK, inBounds_418]

theorem key311_row311W (w : String) : key311 (row311W w) = (41.8, -87.7) := by
  simp only [key311, row311W, Option.getD_some]
  exact keyN_418

/-- C7 counterexample: the latch fields do not equal the first record's
values.  Folding `[row with ward "", row with ward "7"]` (in that order, both
into the same cell) yields final ward `"7"`, although the first record folded
into the cell carried ward `""`. -/
theorem C7_counterexample :
    measureAt Cell311.ward d311
      (fold311 (fun _ => false) [row311W "", row311W "7"] []) (41.8, -87.7)
      = some "7" ∧
    (row311W "").ward = "" ∧ (some "7" : Option String) ≠ some "" := by
  have hinner : stepG acc311 key311 (tw311 (fun _ => false)) d311 []
      (row311W "") =
      [((41.8, -87.7), tw311 (fun _ => false) (row311W "") d311)] := by
    rw [stepG, if_pos (acc311_row311W ""), key311_row311W]
    rfl
  refine ⟨?_, rfl, by simp⟩
  rw [fold311, foldG_cons, foldG_cons, foldG_nil, hinner, stepG,
    if_pos (acc311_row311W "7"), key311_row311W]
  rw [measureAt, lookA_updAssoc_self]
  simp [lookA, tw311, d311, latch, row311W]

/-- C7 (amended): the fold is order-insensitive for all fields except the
latch fields: for every two permutations of a multiset of records, the
per-cell `count`, every per-category count, `recent_count` (311) and the
`arrests` sum (crimes) coincide; the `ward`/`address` fields are instead the
first *non-empty* value carried by the records folded into the cell under the
respective order (or `""` if all values were empty). -/
theorem C7_theorem :
    (∀ (gd : String → Bool) (rows rows' : List Row311), rows.Perm rows' →
      ∀ k : ℚ × ℚ,
        measureAt Cell311.count d311 (fold311 gd rows []) k =
          measureAt Cell311.count d311 (fold311 gd rows' []) k ∧
        (∀ cat : String,
          measureAt (fun c => (lookA c.categories cat).getD 0) d311
              (fold311 gd rows []) k =
            measureAt (fun c => (lookA c.categories cat).getD 0) d311
              (fold311 gd rows' []) k) ∧
        measureAt Cell311.recent_count d311 (fold311 gd rows []) k =
          measureAt Cell311.recent_count d311 (fold311 gd rows' []) k) ∧
    (∀ rows rows' : List RowCrime, rows.Perm rows' →
      ∀ k : ℚ × ℚ,
        measureAt CellCrime.count dCrime (foldCrimes rows []) k =
          measureAt CellCrime.count dCrime (foldCrimes rows' []) k ∧
        (∀ cat : String,
          measureAt (fun c => (lookA c.categories cat).getD 0) dCrime
              (foldCrimes rows []) k =
            measureAt (fun c => (lookA c.categories cat).getD 0) dCrime
              (foldCrimes rows' []) k) ∧
        measureAt CellCrime.arrests dCrime (foldCrimes rows []) k =
          measureAt CellCrime.arrests dCrime (foldCrimes rows' []) k) ∧
    (∀ (gd : String → Bool) (rows : List Row311) (k : ℚ × ℚ),
      measureAt Cell311.ward d311 (fold311 gd rows []) k =
        (if ((rows.filter (hitsG acc311 key311 k)).map Row311.ward).isEmpty
         then none
         else some ((((rows.filter (hitsG acc311 key311 k)).map
           Row311.ward).find? (fun w => decide (w ≠ ""))).getD ""))) := by
  refine ⟨fun gd rows rows' hperm k => ⟨?_, fun cat => ?_, ?_⟩,
    fun rows rows' hperm k => ⟨?_, fun cat => ?_, ?_⟩,
    fun gd rows k => ?_⟩
  · rw [fold311, fold311,
      foldG_measure acc311 key311 (tw311 gd) d311 Cell311.count
        (fun _ => (1 : ℕ)) (fun r a _ => rfl) rows [] k,
      foldG_measure acc311 key311 (tw311 gd) d311 Cell311.count
        (fun _ => (1 : ℕ)) (fun r a _ => rfl) rows' [] k]
    exact congrArg _ (List.Perm.sum_eq ((hperm.filter _).map _))
  · rw [fold311, fold311,
      foldG_measure acc311 key311 (tw311 gd) d311
        (fun c => (lookA c.categories cat).getD 0)
        (fun r => if (classify311 r.sr_type).getD "" = cat then 1 else 0)
        (fun r a _ => catCount_updAssoc cat _ a.categories) rows [] k,
      foldG_measure acc311 key311 (tw311 gd) d311
        (fun c => (lookA c.categories cat).getD 0)
        (fun r => if (classify311 r.sr_type).getD "" = cat then 1 else 0)
        (fun r a _ => catCount_updAssoc cat _ a.categories) rows' [] k]
    exact congrArg _ (List.Perm.sum_eq ((hperm.filter _).map _))
  · rw [fold311, fold311,
      foldG_measure acc311 key311 (tw311 gd) d311 Cell311.recent_count
        (fun r => if gd r.created then 1 else 0) (fun r a _ => rfl) rows [] k,
      foldG_measure acc311 key311 (tw311 gd) d311 Cell311.recent_count
        (fun r => if gd r.created then 1 else 0) (fun r a _ => rfl) rows' [] k]
    exact congrArg _ (List.Perm.sum_eq ((hperm.filter _).map _))
  · rw [foldCrimes, foldCrimes,
      foldG_measure accCrime keyCrime twCrime dCrime CellCrime.count
        (fun _ => (1 : ℕ)) (fun r a _ => rfl) rows [] k,
      foldG_measure accCrime keyCrime twCrime dCrime CellCrime.count
        (fun _ => (1 : ℕ)) (fun r a _ => rfl) rows' [] k]
    exact congrArg _ (List.Perm.sum_eq ((hperm.filter _).map _))
  · rw [foldCrimes, foldCrimes,
      foldG_measure accCrime keyCrime twCrime dCrime
        (fun c => (lookA c.categories cat).getD 0)
        (fun r => if classifyCrime (pyStrip r.primary) = cat then 1 else 0)
        (fun r a _ => catCount_updAssoc cat _ a.categories) rows [] k,
      foldG_measure accCrime keyCrime twCrime dCrime
        (fun c => (lookA c.categories cat).getD 0)
        (fun r => if classifyCrime (pyStrip r.primary) = cat then 1 else 0)
        (fun r a _ => catCount_updAssoc cat _ a.categories) rows' [] k]
    exact congrArg _ (List.Perm.sum_eq ((hperm.filter _).map _))
  · rw [foldCrimes, foldCrimes,
      foldG_measure accCrime keyCrime twCrime dCrime CellCrime.arrests
        (fun r => if pyUpper r.arrest = "Y" then 1 else 0)
        (fun r a _ => rfl) rows [] k,
      foldG_measure accCrime keyCrime twCrime dCrime CellCrime.arrests
        (fun r => if pyUpper r.arrest = "Y" then 1 else 0)
        (fun r a _ => rfl) rows' [] k]
    exact congrArg _ (List.Perm.sum_eq ((hperm.filter _).map _))
  · rw [fold311, foldG_latch acc311 key311 (tw311 gd) d311 Cell311.ward
      Row311.ward (fun r a _ => rfl) rows [] k]
    exact foldl_latch_none _

/-- C7 witness: invariance instantiated at a concrete two-element multiset
under its two orders, and the latch characterization at a concrete list. -/
theorem C7_witness :
    (measureAt Cell311.count d311
        (fold311 (fun _ => false) [row311W "", row311W "7"] []) (41.8, -87.7) =
      measureAt Cell311.count d311
        (fold311 (fun _ => false) [row311W "7", row311W ""] []) (41.8, -87.7)) ∧
    (measureAt Cell311.ward d311
        (fold311 (fun _ => false) [row311W "", row311W "7"] []) (41.8, -87.7) =
      (if (([row311W "", row311W "7"].filter
            (hitsG acc311 key311 (41.8, -87.7))).map Row311.ward).isEmpty
       then none
       else some (((([row311W "", row311W "7"].filter
         (hitsG acc311 key311 (41.8, -87.7))).map
           Row311.ward).find? (fun w => decide (w ≠ ""))).getD ""))) :=
  ⟨(C7_theorem.1 (fun _ => false) [row311W "", row311W "7"]
      [row311W "7", row311W ""] (List.Perm.swap _ _ _) (41.8, -87.7)).1,
    C7_theorem.2.2 (fun _ => false) [row311W "", row311W "7"] (41.8, -87.7)⟩

/-! ### C2: potholes sort key -/

theorem pyTrunc_intCast (n : ℤ) : pyTrunc (n : ℚ) = n := by
  rw [pyTrunc]
  split_ifs <;> simp

theorem scorePotholesA_40 : scorePotholesA 40 = 80 := by
  rw [scorePotholesA, show ((40 : ℤ) : ℚ) / 50 * 100 = ((80 : ℤ) : ℚ) by norm_num,
    pyTrunc_intCast]
  decide

theorem scorePotholesA_10 : scorePotholesA 10 = 20 := by
  rw [scorePotholesA, show ((10 : ℤ) : ℚ) / 50 * 100 = ((20 : ℤ) : ℚ) by norm_num,
    pyTrunc_intCast]
  decide

theorem round4_418n : round4 (209 / 5 : ℚ) = 209 / 5 := by
  rw [round4_eq (209 / 5) 418000 (by norm_num)]
  norm_num

theorem round4_419n : round4 (419 / 10 : ℚ) = 419 / 10 := by
  rw [round4_eq (419 / 10) 419000 (by norm_num)]
  norm_num

theorem round4_877n : round4 (-(877 / 10) : ℚ) = -(877 / 10) := by
  rw [round4_eq (-(877 / 10)) (-877000) (by norm_num)]
  norm_num

/-- Helper: a pothole row (update script) at the given coordinates with the
given raw potholes-filled field. -/
def mkRowPhU (lat lng : ℚ) (f : String) : RowPhU :=
  { latR := some lat, lngR := some lng, filledF := some f, completion := "",
    address := "X" }

/-- A concrete input for the update-script potholes pipeline: one cell with
`count = 3`, `filled = 40`, another with `count = 5`, `filled = 10`. -/
def rowsPotholesUpdEx : List RowPhU :=
  [mkRowPhU 41.8 (-87.7) "40", mkRowPhU 41.8 (-87.7) "0",
   mkRowPhU 41.8 (-87.7) "0",
   mkRowPhU 41.9 (-87.7) "2", mkRowPhU 41.9 (-87.7) "2",
   mkRowPhU 41.9 (-87.7) "2", mkRowPhU 41.9 (-87.7) "2",
   mkRowPhU 41.9 (-87.7) "2"]

theorem filledUpd_40 : filledUpdContribution (some "40") = 40 := by decide

theorem filledUpd_0 : filledUpdContribution (some "0") = 0 := by decide

theorem filledUpd_2 : filledUpdContribution (some "2") = 2 := by decide

theorem evalPotholesUpdEx :
    potholesUpdData rowsPotholesUpdEx =
      [⟨41.9, -87.7, 5, 10, 0, "X"⟩, ⟨41.8, -87.7, 3, 40, 0, "X"⟩] := by
  simp only [potholesUpdData, rowsPotholesUpdEx, mkRowPhU, foldPhU, foldG,
    List.foldl, stepG, accPhU, keyPhU, coordsOK, Option.getD_some,
    inBounds_418, inBounds_419, keyN_418, keyN_419, if_true, updAssoc, lookA,
    twPhU, dPhU, latch, filledUpd_40, filledUpd_0, filledUpd_2, List.filter,
    List.map, List.insertionSort, List.orderedInsert, round4_418, round4_419,
    round4_877]
  norm_num [Prod.mk.injEq, updAssoc, List.insertionSort, List.orderedInsert,
    List.filter, latch, round4_418, round4_419, round4_877, twPhU,
    filledUpd_40, filledUpd_0, filledUpd_2, lookA, round4_418n, round4_419n,
    round4_877n]

/-- C2 counterexample: in the update script's potholes output the serialized
cells are *not* ordered by the potholes-filled sum: on a concrete input with
cells `(count 3, filled 40)` and `(count 5, filled 10)` the `count = 5` cell
precedes although its filled sum (10) is smaller. -/
theorem C2_counterexample :
    ¬ (potholesUpdData rowsPotholesUpdEx).Pairwise
        (fun a b => b.filled ≤ a.filled) := by
  rw [evalPotholesUpdEx]
  intro h
  have := (List.pairwise_cons.mp h).1 _ (List.mem_cons_self _ _)
  norm_num at this

/-- A concrete input for the additional-script potholes pipeline realizing the
specification's scenario: one cell with `count = 3, filled = 40`, another with
`count = 5, filled = 10`. -/
def rowsPotholesAddEx : List RowPhA :=
  [⟨some 41.8, some (-87.7), some "40", "X", ""⟩,
   ⟨some 41.8, some (-87.7), some "0", "X", ""⟩,
   ⟨some 41.8, some (-87.7), some "0", "X", ""⟩,
   ⟨some 41.9, some (-87.7), some "2", "X", ""⟩,
   ⟨some 41.9, some (-87.7), some "2", "X", ""⟩,
   ⟨some 41.9, some (-87.7), some "2", "X", ""⟩,
   ⟨some 41.9, some (-87.7), some "2", "X", ""⟩,
   ⟨some 41.9, some (-87.7), some "2", "X", ""⟩]

theorem phContribution_40 : phContribution (some "40") = 40 := by decide

theorem phContribution_0 : phContribution (some "0") = 0 := by decide

theorem phContribution_2 : phContribution (some "2") = 2 := by decide

theorem evalPotholesAddEx :
    potholesAddData (fun _ => false) rowsPotholesAddEx =
      [⟨41.8, -87.7, 3, 40, 80, "X", 0⟩, ⟨41.9, -87.7, 5, 10, 20, "X", 0⟩] := by
  simp only [potholesAddData, rowsPotholesAddEx, foldPhA, foldG, List.foldl,
    stepG, accPhA, keyPhA, coordsOK, Option.getD_some, inBounds_418,
    inBounds_419, keyA_418, keyA_419, if_true, updAssoc, lookA, twPhA, dPhA,
    latch, phContribution_40, phContribution_0, phContribution_2, List.filter,
    List.map, List.insertionSort, List.orderedInsert, round4_418, round4_419,
    round4_877, scorePotholesA_40, scorePotholesA_10]
  norm_num [Prod.mk.injEq, updAssoc, List.insertionSort, List.orderedInsert,
    List.filter, latch, round4_418, round4_419, round4_877, twPhA,
    phContribution_40, phContribution_0, phContribution_2, lookA,
    round4_418n, round4_419n, round4_877n, scorePotholesA_40,
    scorePotholesA_10]

/-- C2 (amended): the additional script's potholes output is sorted descending
by the potholes-filled sum (a `count 3, filled 40` cell precedes a `count 5,
filled 10` cell, as the specification's scenario demands), but the update
script's potholes output is sorted descending by record count instead. -/
theorem C2_theorem :
    (∀ (g : String → Bool) (rows : List RowPhA),
      (potholesAddData g rows).Pairwise (fun a b => b.filled ≤ a.filled)) ∧
    (∀ rows : List RowPhU,
      (potholesUpdData rows).Pairwise (fun a b => b.count ≤ a.count)) ∧
    (potholesAddData (fun _ => false) rowsPotholesAddEx).map
        (fun e => (e.count, e.filled)) = [(3, 40), (5, 10)] := by
  refine ⟨fun g rows => ?_, fun rows => ?_, ?_⟩
  · haveI : IsTotal EntryPhA (fun a b => b.filled ≤ a.filled) :=
      ⟨fun a b => le_total b.filled a.filled⟩
    haveI : IsTrans EntryPhA (fun a b => b.filled ≤ a.filled) :=
      ⟨fun _ _ _ hab hbc => le_trans hbc hab⟩
    exact List.sorted_insertionSort _ _
  · haveI : IsTotal EntryPhU (fun a b => b.count ≤ a.count) :=
      ⟨fun a b => le_total b.count a.count⟩
    haveI : IsTrans EntryPhU (fun a b => b.count ≤ a.count) :=
      ⟨fun _ _ _ hab hbc => le_trans hbc hab⟩
    exact List.sorted_insertionSort _ _
  · rw [evalPotholesAddEx]
    rfl

/-! ### C3: filter thresholds -/

/-- Helper: a permit row (update script) at `(41.8, -87.7)` with empty status,
cost and street fields. -/
def rowPermUEx : RowPermU :=
  { latR := some 41.8, lngR := some (-87.7), permit_status := "",
    reported_cost := "", street_number := "", street_direction := "",
    street_name := "" }

/-- Four permit records in the same cell: final `count = 4`. -/
def rowsPermitsUpdEx : List RowPermU :=
  [rowPermUEx, rowPermUEx, rowPermUEx, rowPermUEx]

theorem costUpd_empty : costUpdContribution "" = 0 := by
  simp [costUpdContribution]

theorem pyUpper_empty : pyUpper "" = "" := by decide

theorem substrIssued_empty : substrOf "ISSUED" "" = false := by decide

theorem substrComplete_empty : substrOf "COMPLETE" "" = false := by decide

theorem pyStrip_blank : pyStrip ("" ++ " " ++ "" ++ " " ++ "") = "" := by
  decide

theorem pyStrip_blank2 : pyStrip "  " = "" := by decide

theorem pyTrunc_zero : pyTrunc 0 = 0 := by
  rw [show (0 : ℚ) = ((0 : ℤ) : ℚ) by norm_num, pyTrunc_intCast]

theorem evalPermitsUpdEx :
    permitsUpdData rowsPermitsUpdEx = [⟨41.8, -87.7, 4, 0, 0, ""⟩] := by
  simp only [permitsUpdData, rowsPermitsUpdEx, rowPermUEx, foldPermU, foldG,
    List.foldl, stepG, accPermU, keyPermU, coordsOK, Option.getD_some,
    inBounds_418, keyN_418, if_true, updAssoc, lookA, twPermU, dPermU, latch,
    addrPermU, pyUpper_empty, substrIssued_empty, substrComplete_empty,
    pyStrip_blank, pyStrip_blank2, costUpd_empty, List.filter, List.map,
    List.insertionSort, List.orderedInsert, round4_418, round4_877,
    pyTrunc_zero]
  norm_num [Prod.mk.injEq, updAssoc, List.insertionSort, List.orderedInsert,
    List.filter, latch, lookA, twPermU, addrPermU, round4_418n, round4_877n,
    pyTrunc_zero, costUpd_empty, pyUpper_empty, substrIssued_empty,
    substrComplete_empty, pyStrip_blank, pyStrip_blank2]

/-- C3 counterexample: the claimed permit threshold is 5, so a cell with
`count = 4` should never be serialized; but the update script's permit
pipeline (threshold 2) serializes a `count = 4` cell. -/
theorem C3_counterexample :
    ∃ e ∈ permitsUpdData rowsPermitsUpdEx, e.count = 4 ∧ 4 < 5 := by
  rw [evalPermitsUpdEx]
  exact ⟨_, List.mem_singleton_self _, rfl, by norm_num⟩

/-- C3 (amended): a cell whose count equals the applicable threshold is
retained by the filter and one with count one below is discarded, but the
thresholds differ between the scripts: in `process-neighborhood-data.py` /
`process-additional-data.py` they are requests 3, crimes 2, crashes 3,
permits 5, licenses 3, potholes 3, while in `update-neighborhood-data.py`
they are requests 3, crimes 2, crashes 3, violations 2, potholes 2,
permits 2, licenses 2; serialized entries always satisfy the applicable
threshold. -/
theorem C3_theorem :
    (∀ (blocks : List ((ℚ × ℚ) × Cell311)) (k : ℚ × ℚ) (c : Cell311),
      (k, c) ∈ filter311N blocks ↔ (k, c) ∈ blocks ∧ 3 ≤ c.count) ∧
    (∀ (blocks : List ((ℚ × ℚ) × CellCrime)) (k : ℚ × ℚ) (c : CellCrime),
      (k, c) ∈ filterCrimesN blocks ↔ (k, c) ∈ blocks ∧ 2 ≤ c.count) ∧
    (∀ (blocks : List ((ℚ × ℚ) × CellCrash)) (k : ℚ × ℚ) (c : CellCrash),
      (k, c) ∈ filterCrashesN blocks ↔ (k, c) ∈ blocks ∧ 3 ≤ c.count) ∧
    (∀ (blocks : List ((ℚ × ℚ) × CellPermA)) (k : ℚ × ℚ) (c : CellPermA),
      (k, c) ∈ filterPermitsA blocks ↔ (k, c) ∈ blocks ∧ 5 ≤ c.count) ∧
    (∀ (blocks : List ((ℚ × ℚ) × CellLicA)) (k : ℚ × ℚ) (c : CellLicA),
      (k, c) ∈ filterLicensesA blocks ↔ (k, c) ∈ blocks ∧ 3 ≤ c.count) ∧
    (∀ (blocks : List ((ℚ × ℚ) × CellPhA)) (k : ℚ × ℚ) (c : CellPhA),
      (k, c) ∈ filterPotholesA blocks ↔ (k, c) ∈ blocks ∧ 3 ≤ c.count) ∧
    (∀ (blocks : List ((ℚ × ℚ) × Cell311)) (k : ℚ × ℚ) (c : Cell311),
      (k, c) ∈ filter311U blocks ↔ (k, c) ∈ blocks ∧ 3 ≤ c.count) ∧
    (∀ (blocks : List ((ℚ × ℚ) × CellCrime)) (k : ℚ × ℚ) (c : CellCrime),
      (k, c) ∈ filterCrimesU blocks ↔ (k, c) ∈ blocks ∧ 2 ≤ c.count) ∧
    (∀ (blocks : List ((ℚ × ℚ) × CellCrash)) (k : ℚ × ℚ) (c : CellCrash),
      (k, c) ∈ filterCrashesU blocks ↔ (k, c) ∈ blocks ∧ 3 ≤ c.count) ∧
    (∀ (blocks : List ((ℚ × ℚ) × CellViolU)) (k : ℚ × ℚ) (c : CellViolU),
      (k, c) ∈ filterViolationsU blocks ↔ (k, c) ∈ blocks ∧ 2 ≤ c.count) ∧
    (∀ (blocks : List ((ℚ × ℚ) × CellPhU)) (k : ℚ × ℚ) (c : CellPhU),
      (k, c) ∈ filterPotholesU blocks ↔ (k, c) ∈ blocks ∧ 2 ≤ c.count) ∧
    (∀ (blocks : List ((ℚ × ℚ) × CellPermU)) (k : ℚ × ℚ) (c : CellPermU),
      (k, c) ∈ filterPermitsU blocks ↔ (k, c) ∈ blocks ∧ 2 ≤ c.count) ∧
    (∀ (blocks : List ((ℚ × ℚ) × CellLicU)) (k : ℚ × ℚ) (c : CellLicU),
      (k, c) ∈ filterLicensesU blocks ↔ (k, c) ∈ blocks ∧ 2 ≤ c.count) ∧
    (∀ (g : String → Bool) (rows : List RowPermA),
      (permitsAddData g rows).all (fun e => decide (5 ≤ e.count)) = true) ∧
    (∀ (g : String → Bool) (rows : List RowPhA),
      (potholesAddData g rows).all (fun e => decide (3 ≤ e.count)) = true) ∧
    (∀ rows : List RowPermU,
      (permitsUpdData rows).all (fun e => decide (2 ≤ e.count)) = true) ∧
    (∀ rows : List RowPhU,
      (potholesUpdData rows).all (fun e => decide (2 ≤ e.count)) = true) := by
  refine ⟨fun blocks k c => by simp [filter311N, List.mem_filter],
    fun blocks k c => by simp [filterCrimesN, List.mem_filter],
    fun blocks k c => by simp [filterCrashesN, List.mem_filter],
    fun blocks k c => by simp [filterPermitsA, List.mem_filter],
    fun blocks k c => by simp [filterLicensesA, List.mem_filter],
    fun blocks k c => by simp [filterPotholesA, List.mem_filter],
    fun blocks k c => by simp [filter311U, List.mem_filter],
    fun blocks k c => by simp [filterCrimesU, List.mem_filter],
    fun blocks k c => by simp [filterCrashesU, List.mem_filter],
    fun blocks k c => by simp [filterViolationsU, List.mem_filter],
    fun blocks k c => by simp [filterPotholesU, List.mem_filter],
    fun blocks k c => by simp [filterPermitsU, List.mem_filter],
    fun blocks k c => by simp [filterLicensesU, List.mem_filter],
    fun g rows => ?_, fun g rows => ?_, fun rows => ?_, fun rows => ?_⟩
  · rw [List.all_eq_true]
    intro e he
    simp only [permitsAddData] at he
    have he' := (List.perm_insertionSort _ _).mem_iff.mp he
    rcases List.mem_map.mp he' with ⟨kv, hkv, rfl⟩
    have h2 := (List.mem_filter.mp hkv).2
    simpa using h2
  · rw [List.all_eq_true]
    intro e he
    simp only [potholesAddData] at he
    have he' := (List.perm_insertionSort _ _).mem_iff.mp he
    rcases List.mem_map.mp he' with ⟨kv, hkv, rfl⟩
    have h2 := (List.mem_filter.mp hkv).2
    simpa using h2
  · rw [List.all_eq_true]
    intro e he
    simp only [permitsUpdData] at he
    have he' := (List.perm_insertionSort _ _).mem_iff.mp he
    rcases List.mem_map.mp he' with ⟨kv, hkv, rfl⟩
    have h2 := (List.mem_filter.mp hkv).2
    simpa using h2
  · rw [List.all_eq_true]
    intro e he
    simp only [potholesUpdData] at he
    have he' := (List.perm_insertionSort _ _).mem_iff.mp he
    rcases List.mem_map.mp he' with ⟨kv, hkv, rfl⟩
    have h2 := (List.mem_filter.mp hkv).2
    simpa using h2

/-! ### C10: camera-violation aggregation -/

/-- C10: camera aggregation is keyed by camera id with last-writer-wins
metadata: (1) a row failing the acceptance condition changes nothing; (2) an
accepted row has a non-empty camera id, a strictly positive parsed violations
value and nonzero coordinates; (3) a retained camera's stored latitude,
longitude and address are those of the last accepted row for that id; (4) its
violations counter is the sum over its accepted rows; (5) a camera whose
summed total is below 100 never appears in the serialized output. -/
theorem C10_theorem :
    (∀ (s : List (String × CellCam)) (r : RowCam), accCam r = false →
      stepG accCam keyCam twCam dCam s r = s) ∧
    (∀ r : RowCam, accCam r = true →
      r.cameraId ≠ "" ∧ 0 < pyTrunc (r.violR.getD 0) ∧
        r.latF.getD 0 ≠ 0 ∧ r.lngF.getD 0 ≠ 0) ∧
    (∀ (rows : List RowCam) (cam : String),
      measureAt (fun c => (c.lat, c.lng, c.address)) dCam (foldCam rows []) cam
        = (((rows.filter (hitsG accCam keyCam cam)).getLast?).map
            (fun r => (r.latF.getD 0, r.lngF.getD 0, r.address))).getD
          (0, 0, "")) ∧
    (∀ (rows : List RowCam) (cam : String),
      measureAt CellCam.violations dCam (foldCam rows []) cam =
        ((rows.filter (hitsG accCam keyCam cam)).map
          (fun r => pyTrunc (r.violR.getD 0))).sum) ∧
    (∀ (rows : List RowCam) (cam : String) (info : CellCam),
      lookA (foldCam rows []) cam = some info → info.violations < 100 →
        ∀ e ∈ rlData rows, e.cameraId ≠ cam) := by
  refine ⟨fun s r h => ?_, fun r h => ?_, fun rows cam => ?_,
    fun rows cam => ?_, fun rows cam info hlook hlt e he => ?_⟩
  · rw [stepG, if_neg (by simp [h])]
  · rcases hv : r.violR with _ | v
    · rw [accCam, hv] at h
      simp at h
    · rcases hla : r.latF with _ | la
      · rw [accCam, hv, hla] at h
        simp at h
      · rcases hln : r.lngF with _ | ln
        · rw [accCam, hv, hla, hln] at h
          simp at h
        · rw [accCam, hv, hla, hln] at h
          simp only [Bool.and_eq_true, decide_eq_true_eq] at h
          refine ⟨h.1.1.1, ?_, ?_, ?_⟩
          · simpa using h.1.1.2
          · simpa using h.1.2
          · simpa using h.2
  · rw [foldCam, foldG_setter accCam keyCam twCam dCam
      (fun c => (c.lat, c.lng, c.address))
      (fun r => (r.latF.getD 0, r.lngF.getD 0, r.address))
      (fun r a _ => rfl) rows [] cam]
    rfl
  · rw [foldCam, foldG_measure accCam keyCam twCam dCam CellCam.violations
      (fun r => pyTrunc (r.violR.getD 0)) (fun r a _ => rfl) rows [] cam]
    simp [measureAt, lookA, dCam]
  · intro hcam
    simp only [rlData] at he
    have he' := (List.perm_insertionSort _ _).mem_iff.mp he
    rcases List.mem_map.mp he' with ⟨⟨camId, cell⟩, hkv, rfl⟩
    obtain ⟨hmem, hge⟩ := List.mem_filter.mp hkv
    have hcamId : camId = cam := hcam
    have hnd : ((foldCam rows []).map Prod.fst).Nodup :=
      keys_foldG_nodup _ _ _ _ _ _ (by simp)
    have hl : lookA (foldCam rows []) camId = some cell :=
      lookA_of_mem_nodup hnd hmem
    rw [hcamId, hlook] at hl
    have hcell : info = cell := by
      injection hl
    rw [← hcell] at hge
    simp only [decide_eq_true_eq] at hge
    exact absurd hge (by omega)

/-- A camera row rejected by the empty-id guard. -/
def rowCamBad : RowCam :=
  { cameraId := "", violR := some 5, latF := some 1, lngF := some 1,
    address := "A", intersection := "I" }

/-- A valid camera row with 50 parsed violations. -/
def rowCamGood : RowCam :=
  { cameraId := "CAM1", violR := some 50, latF := some 1, lngF := some 1,
    address := "addr", intersection := "cross" }

theorem pyTrunc_50 : pyTrunc ((50 : ℚ)) = 50 := by
  rw [show (50 : ℚ) = ((50 : ℤ) : ℚ) by norm_num, pyTrunc_intCast]

theorem accCam_bad : accCam rowCamBad = false := by
  simp [accCam, rowCamBad]

theorem accCam_good : accCam rowCamGood = true := by
  simp [accCam, rowCamGood, pyTrunc_50]

theorem evalFoldCamGood :
    lookA (foldCam [rowCamGood] []) "CAM1" = some ⟨50, 1, 1, "addr", "cross"⟩ := by
  rw [foldCam, foldG_cons, foldG_nil, stepG, if_pos accCam_good]
  rw [show keyCam rowCamGood = "CAM1" from rfl, lookA_updAssoc_self]
  simp [lookA, twCam, dCam, rowCamGood, pyTrunc_50]

/-- C10 witness: the three hypothesis-bearing parts at concrete inputs: a row
with empty camera id changes nothing; an accepted row satisfies the
acceptance conditions; a camera with summed violations 50 (< 100) is absent
from the serialized output. -/
theorem C10_witness :
    (stepG accCam keyCam twCam dCam [] rowCamBad = []) ∧
    (rowCamGood.cameraId ≠ "" ∧ 0 < pyTrunc (rowCamGood.violR.getD 0) ∧
      rowCamGood.latF.getD 0 ≠ 0 ∧ rowCamGood.lngF.getD 0 ≠ 0) ∧
    (∀ e ∈ rlData [rowCamGood], e.cameraId ≠ "CAM1") :=
  ⟨C10_theorem.1 [] rowCamBad accCam_bad,
   C10_theorem.2.1 rowCamGood accCam_good,
   C10_theorem.2.2.2.2 [rowCamGood] "CAM1" ⟨50, 1, 1, "addr", "cross"⟩
     evalFoldCamGood (by norm_num)⟩
